import Mathlib

/-!
Verification of the NBA prediction engine of this repository.

The engine lives in two files:
* the core prediction module (`calculateParetoAdjustment`, `hasParetoPlayerOut`,
  `calculateMatchupModifier`, `calculateEdge`, `calculatePlayerProjection`), and
* the game-analysis service (`generatePlayerProjection`, `generateDailyPick`).

Numbers are modelled by `ℚ`; the one place the source can produce a JavaScript
`NaN`/`Infinity` (the redistribution multiplier `(usage + extra) / usage`) is
modelled explicitly by the `JsNum` type.  Display strings that interpolate
numbers are modelled structurally (inductive types carrying the same data),
never dropped when a claim mentions them.
-/

namespace Analytics

/-- A JavaScript number: either an actual (rational) number, or one of the
IEEE special values `NaN` / `Infinity` / `-Infinity` that JS division can
produce.  Only division introduces special values in the engine. -/
inductive JsNum where
  | num (q : ℚ)
  | nan
  | inf
  | ninf
deriving DecidableEq, Repr

/-- JavaScript division `a / b` on actual numbers: `0 / 0` is `NaN`,
`a / 0` with `a ≠ 0` is a signed infinity, otherwise exact division. -/
def jsDiv (a b : ℚ) : JsNum :=
  if b = 0 then (if a = 0 then JsNum.nan else if 0 < a then JsNum.inf else JsNum.ninf)
  else JsNum.num (a / b)

/-- JavaScript truthiness of a number: `0` and `NaN` are falsy. -/
def jsTruthy : JsNum → Bool
  | JsNum.num q => decide (q ≠ 0)
  | JsNum.nan => false
  | JsNum.inf => true
  | JsNum.ninf => true

/-- `Math.round`: round half toward positive infinity. -/
def jsRound (q : ℚ) : ℤ := ⌊q + 1/2⌋

/-- `parseFloat(x.toFixed(1))`: round to one decimal place. -/
def roundToTenth (q : ℚ) : ℚ := (⌊q * 10 + 1/2⌋ : ℚ) / 10

/-- Injury status union type of the data service:
`'Out' | 'Day-To-Day' | 'Questionable' | 'Probable'`. -/
inductive InjStatus where
  | out
  | dayToDay
  | questionable
  | probable
deriving DecidableEq, Repr

/-- An injury-report entry; the engine reads only `playerId` and `status`
(the remaining display-only fields of the source record are omitted). -/
structure Injury where
  playerId : String
  status : InjStatus
deriving DecidableEq, Repr

/-- One play type of a player's Synergy profile. -/
structure SynergyPlayType where
  playType : String
  ppp : ℚ
  percentile : ℚ
  frequency : ℚ
  possessions : ℚ
deriving DecidableEq, Repr

/-- A player's Synergy profile. -/
structure PlayerSynergyStats where
  playerId : String
  playerName : String
  team : String
  playTypes : List SynergyPlayType
deriving DecidableEq, Repr

/-- Per-play-type defensive ranks of a team (1 best … 30 worst). -/
structure DefenseRanks where
  iso : ℤ
  pnr : ℤ
  spotup : ℤ
  transition : ℤ
  postup : ℤ
  overall : ℤ
deriving DecidableEq, Repr

/-- A team's defensive profile (`alias` of the source is `teamAlias` here,
`alias` being a Lean keyword). -/
structure TeamDefenseStats where
  teamId : String
  teamName : String
  teamAlias : String
  defenseRanks : DefenseRanks
deriving DecidableEq, Repr

/-- Engine input record for one roster player. -/
structure PlayerData where
  id : String
  name : String
  team : String
  position : String
  usage : ℚ
  basePoints : ℚ
  synergyStats : Option PlayerSynergyStats
deriving DecidableEq, Repr

-- Constants of the prediction engine.

def PARETO_CORE_PERCENTAGE : ℚ := 1/5

def PARETO_EFFICIENCY_PENALTY : ℚ := 15/100

def SYNERGY_BOOST : ℚ := 1/10

def SYNERGY_PENALTY : ℚ := 1/10

def B2B_PENALTY : ℚ := 3/100

def VALUE_THRESHOLD : ℚ := 1/10

def ELITE_DEFENSE_RANK : ℤ := 5

def WEAK_DEFENSE_RANK : ℤ := 25

/-- `injuries.find(i => i.playerId === player.id)`. -/
def findInjury (injuries : List Injury) (pid : String) : Option Injury :=
  injuries.find? (fun i => i.playerId == pid)

/-- `injury && injury.status === 'Out'`. -/
def injuryIsOut (inj : Option Injury) : Bool :=
  match inj with
  | some i => decide (i.status = InjStatus.out)
  | none => false

/-- `injury && injury.status === 'Day-To-Day'`. -/
def injuryIsDayToDay (inj : Option Injury) : Bool :=
  match inj with
  | some i => decide (i.status = InjStatus.dayToDay)
  | none => false

/-- `injury && (injury.status === 'Out' || injury.status === 'Day-To-Day')`:
the engine's notion of an unavailable player. -/
def unavailB (injuries : List Injury) (p : PlayerData) : Bool :=
  match findInjury injuries p.id with
  | some i => decide (i.status = InjStatus.out ∨ i.status = InjStatus.dayToDay)
  | none => false

/-- Insert one player into a list that is already sorted by descending usage,
after every strictly-higher-usage player and after equal-usage players. -/
def insertByUsage (x : PlayerData) : List PlayerData → List PlayerData
  | [] => [x]
  | y :: l => if y.usage < x.usage then x :: y :: l else y :: insertByUsage x l

/-- `[...roster].sort((a, b) => b.usage - a.usage)`: stable descending sort
by usage (JavaScript `Array.prototype.sort` is stable). -/
def sortByUsageDesc (roster : List PlayerData) : List PlayerData :=
  roster.foldl (fun acc x => insertByUsage x acc) []

/-- The adjustments `Map<string, number>`, keyed by player id, in insertion
order. -/
abbrev AdjMap := List (String × JsNum)

/-- `Map.prototype.set`: replace the entry of an existing key, else append. -/
def mapSet (m : AdjMap) (k : String) (v : JsNum) : AdjMap :=
  if m.any (fun e => e.1 == k) then
    m.map (fun e => if e.1 == k then (k, v) else e)
  else m ++ [(k, v)]

/-- `Map.prototype.get` (as an `Option`). -/
def mapGet (m : AdjMap) (k : String) : Option JsNum :=
  (m.find? (fun e => e.1 == k)).map (fun e => e.2)

/-- `Math.max(1, Math.ceil(roster.length * PARETO_CORE_PERCENTAGE))`. -/
def paretoTopCount (roster : List PlayerData) : ℕ :=
  max 1 (Int.toNat ⌈(roster.length : ℚ) * PARETO_CORE_PERCENTAGE⌉)

/-- Ids of the Pareto core: the top-`paretoTopCount` players by usage. -/
def paretoCoreIds (roster : List PlayerData) : List String :=
  ((sortByUsageDesc roster).take (paretoTopCount roster)).map (fun p => p.id)

/-- Accumulator of the roster pass of `calculateParetoAdjustment`:
the adjustments map, the active players in roster order, the total missing
core usage, and the total active usage. -/
structure ParetoPass where
  adj : AdjMap
  actives : List PlayerData
  missing : ℚ
  active : ℚ

/-- One step of the roster pass: an unavailable player is zeroed out (his
usage counts as missing only when he is in the Pareto core); every other
player is collected as active. -/
def paretoStep (coreIds : List String) (injuries : List Injury)
    (st : ParetoPass) (p : PlayerData) : ParetoPass :=
  if unavailB injuries p then
    { st with
      missing := st.missing + (if coreIds.contains p.id then p.usage else 0),
      adj := mapSet st.adj p.id (JsNum.num 0) }
  else
    { st with actives := st.actives ++ [p], active := st.active + p.usage }

/-- `calculateParetoAdjustment(roster, injuries)`: volume redistribution
multipliers keyed by player id.  Everyone starts at `1.0`; unavailable
players are set to `0`; if a core player's usage is missing and some active
usage remains, each active player's multiplier becomes
`(usage + missingUsage × (usage / activeUsage)) / usage` (JS division, which
is `NaN` for an active player of usage `0`). -/
def calculateParetoAdjustment (roster : List PlayerData) (injuries : List Injury) : AdjMap :=
  let adjustments := roster.foldl (fun m p => mapSet m p.id (JsNum.num 1)) []
  if roster.length = 0 then adjustments
  else
    let pass := roster.foldl (paretoStep (paretoCoreIds roster) injuries)
      { adj := adjustments, actives := [], missing := 0, active := 0 }
    if 0 < pass.missing ∧ 0 < pass.active then
      pass.actives.foldl (fun m p =>
        let share := p.usage / pass.active
        let extraUsage := pass.missing * share
        mapSet m p.id (jsDiv (p.usage + extraUsage) p.usage)) pass.adj
    else pass.adj

/-- `hasParetoPlayerOut(roster, injuries)`: is some top-3-usage player
`Out`? -/
def hasParetoPlayerOut (roster : List PlayerData) (injuries : List Injury) : Bool :=
  if roster.length = 0 then false
  else
    ((sortByUsageDesc roster).take 3).any (fun p => injuryIsOut (findInjury injuries p.id))

/-- The five keys of `defenseRanks` addressed by `playTypeToDefenseKey`. -/
inductive DefKey where
  | iso
  | pnr
  | spotup
  | transition
  | postup
deriving DecidableEq, Repr

/-- The `playTypeToDefenseKey` record (a partial map: unmapped play types
are skipped by the matchup loop). -/
def playTypeToDefenseKey (s : String) : Option DefKey :=
  if s = "Isolation" then some DefKey.iso
  else if s = "PRBallHandler" then some DefKey.pnr
  else if s = "Spotup" then some DefKey.spotup
  else if s = "Transition" then some DefKey.transition
  else if s = "Postup" then some DefKey.postup
  else none

/-- `opponentDefense.defenseRanks[defenseKey]`. -/
def rankFor (d : DefenseRanks) : DefKey → ℤ
  | DefKey.iso => d.iso
  | DefKey.pnr => d.pnr
  | DefKey.spotup => d.spotup
  | DefKey.transition => d.transition
  | DefKey.postup => d.postup

/-- One reason string pushed by the matchup loop, modelled structurally:
either an elite-defense penalty note or a weak-defense boost note (the
source interpolates `alias`, the play type and the rank into the string). -/
inductive MatchupNote where
  | elite (teamAlias : String) (playType : String) (rank : ℤ)
  | weak (teamAlias : String) (playType : String) (rank : ℤ)
deriving DecidableEq, Repr

/-- Accumulator of the matchup loop. -/
structure MatchupState where
  totalModifier : ℚ
  totalFrequency : ℚ
  reasons : List MatchupNote

/-- Result of `calculateMatchupModifier`: the modifier and the reason notes
(the source joins the notes with `'. '` into one string). -/
structure MatchupResult where
  modifier : ℚ
  reason : List MatchupNote
deriving DecidableEq, Repr

/-- One iteration of the matchup loop over the player's play types:
unmapped play types and play types of frequency `< 0.15` are skipped
entirely; a rank `≤ 5` subtracts `0.10 × frequency`, a rank `≥ 25` adds
`0.10 × frequency`, and the running total frequency is accumulated. -/
def matchupStep (od : TeamDefenseStats) (st : MatchupState) (pt : SynergyPlayType) : MatchupState :=
  match playTypeToDefenseKey pt.playType with
  | none => st
  | some key =>
    if pt.frequency < 15/100 then st
    else
      let defenseRank := rankFor od.defenseRanks key
      let st' :=
        if defenseRank ≤ ELITE_DEFENSE_RANK then
          { st with
            totalModifier := st.totalModifier - SYNERGY_PENALTY * pt.frequency,
            reasons := st.reasons ++ [MatchupNote.elite od.teamAlias pt.playType defenseRank] }
        else if WEAK_DEFENSE_RANK ≤ defenseRank then
          { st with
            totalModifier := st.totalModifier + SYNERGY_BOOST * pt.frequency,
            reasons := st.reasons ++ [MatchupNote.weak od.teamAlias pt.playType defenseRank] }
        else st
      { st' with totalFrequency := st'.totalFrequency + pt.frequency }

/-- `calculateMatchupModifier(playerSynergy, opponentDefense)`. -/
def calculateMatchupModifier (playerSynergy : Option PlayerSynergyStats)
    (opponentDefense : Option TeamDefenseStats) : MatchupResult :=
  match playerSynergy, opponentDefense with
  | some ps, some od =>
    let st := ps.playTypes.foldl (matchupStep od) { totalModifier := 0, totalFrequency := 0, reasons := [] }
    { modifier := 1 + st.totalModifier, reason := st.reasons }
  | _, _ => { modifier := 1, reason := [] }

/-- Result of `calculateEdge`. -/
structure EdgeResult where
  edge : ℚ
  isValue : Bool
deriving DecidableEq, Repr

/-- `calculateEdge(projection, vegasLine)`: percentage edge of the model
projection over the Vegas line, and the value flag `edge >= VALUE_THRESHOLD`
(a signed comparison in the source). -/
def calculateEdge (projection : ℚ) (vegasLine : ℚ) : EdgeResult :=
  if vegasLine ≤ 0 then { edge := 0, isValue := false }
  else
    let edge := (projection - vegasLine) / vegasLine
    { edge := edge * 100, isValue := decide (VALUE_THRESHOLD ≤ edge) }

/-- One entry of the `reasons` list of `calculatePlayerProjection`, modelled
structurally (the source interpolates the carried numbers into a string). -/
inductive Reason where
  | inactive
  | base (ppg : ℚ)
  | volumeBoost (multiplier : ℚ)
  | efficiencyPenalty
  | matchup (notes : List MatchupNote)
  | b2bFatigue
deriving DecidableEq, Repr

/-- `ProjectionResult` of the engine (`vegasOdd`, unset on this code path,
is omitted; `reason`, a joined string in the source, is the ordered note
list). -/
structure ProjectionResult where
  playerId : String
  playerName : String
  projectedPoints : ℚ
  confidence : ℤ
  reason : List Reason
  isValueBet : Bool
  edge : ℚ
  vegasLine : Option ℚ
deriving DecidableEq, Repr

/-- The JS expression `x || 1.0` applied to `paretoAdjustments.get(id)`:
a missing, zero or `NaN` multiplier falls back to `1.0`. -/
def jsOrOne (v : Option JsNum) : JsNum :=
  match v with
  | some w => if jsTruthy w then w else JsNum.num 1
  | none => JsNum.num 1

/-- Rational value of a `JsNum`; the special values map to `0`.  It is only
applied after `jsOrOne` (which removes `NaN`) to Pareto-map values (which
never hold `±Infinity`, see `calculateParetoAdjustment_values`), so the
`0` branches are unreachable there. -/
def qOfJs : JsNum → ℚ
  | JsNum.num q => q
  | _ => 0

/-- `paretoAdjustments.get(player.id) || 1.0` as a rational. -/
def volumeMultOf (roster : List PlayerData) (injuries : List Injury) (pid : String) : ℚ :=
  qOfJs (jsOrOne (mapGet (calculateParetoAdjustment roster injuries) pid))

/-- Condition of step 4 of the projection: a Pareto core player is out and
this player has no injury-report entry at all. -/
def penaltyApplies (roster : List PlayerData) (injuries : List Injury) (pid : String) : Bool :=
  hasParetoPlayerOut roster injuries && (findInjury injuries pid).isNone

/-- Steps 2–6 of `calculatePlayerProjection`: the running projection before
the final rounding.  Each step multiplies exactly as the source does (the
volume multiplier only when `> 1.0`, the matchup modifier only when
`≠ 1.0`, which is value-identical to always multiplying by it). -/
def runningProjection (player : PlayerData) (opponentDefense : Option TeamDefenseStats)
    (injuries : List Injury) (teamRoster : List PlayerData) (isB2B : Bool) : ℚ :=
  let volumeMultiplier := volumeMultOf teamRoster injuries player.id
  let p1 := if 1 < volumeMultiplier then player.basePoints * volumeMultiplier else player.basePoints
  let p2 := if penaltyApplies teamRoster injuries player.id then p1 * (1 - PARETO_EFFICIENCY_PENALTY) else p1
  let matchup := calculateMatchupModifier player.synergyStats opponentDefense
  let p3 := if matchup.modifier ≠ 1 then p2 * matchup.modifier else p2
  if isB2B then p3 * (1 - B2B_PENALTY) else p3

/-- The `reasons` list accumulated by steps 2–6, in push order. -/
def projectionReasons (player : PlayerData) (opponentDefense : Option TeamDefenseStats)
    (injuries : List Injury) (teamRoster : List PlayerData) (isB2B : Bool) : List Reason :=
  let volumeMultiplier := volumeMultOf teamRoster injuries player.id
  let r1 := [Reason.base player.basePoints]
    ++ (if 1 < volumeMultiplier then [Reason.volumeBoost volumeMultiplier] else [])
  let r2 := r1 ++ (if penaltyApplies teamRoster injuries player.id then [Reason.efficiencyPenalty] else [])
  let matchup := calculateMatchupModifier player.synergyStats opponentDefense
  let r3 := r2 ++ (if matchup.modifier ≠ 1 ∧ matchup.reason ≠ [] then [Reason.matchup matchup.reason] else [])
  r3 ++ (if isB2B then [Reason.b2bFatigue] else [])

/-- Step 7 of `calculatePlayerProjection`: the confidence score. -/
def projectionConfidence (isB2B : Bool) (volumeMultiplier : ℚ) (playerInjury : Option Injury) : ℤ :=
  let c1 : ℤ := if isB2B then 85 - 10 else 85
  let c2 := if 12/10 < volumeMultiplier then c1 - 15 else c1
  let c3 := if injuryIsDayToDay playerInjury then c2 - 20 else c2
  max 30 (min 95 c3)

/-- Step 8: `vegasLine ? calculateEdge(projectedPoints, vegasLine) :
{ edge: 0, isValue: false }` (a `vegasLine` of `0` is falsy in JS). -/
def projectionEdgeResult (projectedPoints : ℚ) (vegasLine : Option ℚ) : EdgeResult :=
  match vegasLine with
  | some l => if l ≠ 0 then calculateEdge projectedPoints l else { edge := 0, isValue := false }
  | none => { edge := 0, isValue := false }

/-- The non-gated branch of `calculatePlayerProjection` (steps 2–8). -/
def projectActivePlayer (player : PlayerData) (opponentDefense : Option TeamDefenseStats)
    (injuries : List Injury) (teamRoster : List PlayerData) (isB2B : Bool)
    (vegasLine : Option ℚ) : ProjectionResult :=
  let projectedPoints := runningProjection player opponentDefense injuries teamRoster isB2B
  let edgeResult := projectionEdgeResult projectedPoints vegasLine
  { playerId := player.id
    playerName := player.name
    projectedPoints := roundToTenth projectedPoints
    confidence := projectionConfidence isB2B (volumeMultOf teamRoster injuries player.id)
      (findInjury injuries player.id)
    reason := projectionReasons player opponentDefense injuries teamRoster isB2B
    isValueBet := edgeResult.isValue
    edge := roundToTenth edgeResult.edge
    vegasLine := vegasLine }

/-- `calculatePlayerProjection(player, opponentDefense, injuries, teamRoster,
isB2B, vegasLine)`: gate on an `Out` status, otherwise run steps 2–8. -/
def calculatePlayerProjection (player : PlayerData) (opponentDefense : Option TeamDefenseStats)
    (injuries : List Injury) (teamRoster : List PlayerData) (isB2B : Bool)
    (vegasLine : Option ℚ) : ProjectionResult :=
  let playerInjury := findInjury injuries player.id
  if injuryIsOut playerInjury then
    { playerId := player.id
      playerName := player.name
      projectedPoints := 0
      confidence := 100
      reason := [Reason.inactive]
      isValueBet := false
      edge := 0
      vegasLine := vegasLine }
  else projectActivePlayer player opponentDefense injuries teamRoster isB2B vegasLine

-- ---------------------------------------------------------------------------
-- Game-analysis service: `generateDailyPick`.
-- ---------------------------------------------------------------------------

/-- `PlayerProjection` of the game-analysis service: per-statistic
projection, Vegas line and percentage edge, for points / assists / rebounds
/ three-pointers. -/
structure PlayerProjection where
  playerId : String
  playerName : String
  position : String
  projection : ℚ
  line : ℚ
  edge : ℚ
  assistsProjection : ℚ
  assistsLine : ℚ
  assistsEdge : ℚ
  reboundsProjection : ℚ
  reboundsLine : ℚ
  reboundsEdge : ℚ
  threesProjection : ℚ
  threesLine : ℚ
  threesEdge : ℚ
  isValueBet : Bool
  confidence : ℤ
deriving DecidableEq, Repr

/-- A projection spread together with its `teamAlias`
(`{ ...p, teamAlias }`). -/
structure TaggedProjection where
  proj : PlayerProjection
  teamAlias : String
deriving DecidableEq, Repr

def tagWith (teamAlias : String) (p : PlayerProjection) : TaggedProjection :=
  { proj := p, teamAlias := teamAlias }

/-- The statistics the prop scan of `generateDailyPick` examines
(`'points' | 'assists' | 'rebounds'`; the three-pointer fields exist on
`PlayerProjection` but are never scanned). -/
inductive PropStat where
  | points
  | assists
  | rebounds
deriving DecidableEq, Repr

inductive OverUnder where
  | over
  | under
deriving DecidableEq, Repr

def statEdge (p : PlayerProjection) : PropStat → ℚ
  | PropStat.points => p.edge
  | PropStat.assists => p.assistsEdge
  | PropStat.rebounds => p.reboundsEdge

def statProjection (p : PlayerProjection) : PropStat → ℚ
  | PropStat.points => p.projection
  | PropStat.assists => p.assistsProjection
  | PropStat.rebounds => p.reboundsProjection

def statLine (p : PlayerProjection) : PropStat → ℚ
  | PropStat.points => p.line
  | PropStat.assists => p.assistsLine
  | PropStat.rebounds => p.reboundsLine

/-- The `bestProp` record of `generateDailyPick`. -/
structure BestProp where
  player : TaggedProjection
  stat : PropStat
  edge : ℚ
  projection : ℚ
  line : ℚ
  type : OverUnder
deriving DecidableEq, Repr

def PROP_EDGE_THRESHOLD : ℚ := 12

def MONEYLINE_EDGE_THRESHOLD : ℚ := 8

/-- One (player, statistic) candidate of the prop scan. -/
structure PropCand where
  player : TaggedProjection
  stat : PropStat
deriving DecidableEq, Repr

def candEdge (c : PropCand) : ℚ := statEdge c.player.proj c.stat

def candQualifies (c : PropCand) : Bool := decide (PROP_EDGE_THRESHOLD ≤ |candEdge c|)

/-- The `bestProp` record built when a candidate is adopted. -/
def mkBestProp (c : PropCand) : BestProp :=
  { player := c.player
    stat := c.stat
    edge := candEdge c
    projection := statProjection c.player.proj c.stat
    line := statLine c.player.proj c.stat
    type := if 0 < candEdge c then OverUnder.over else OverUnder.under }

/-- One `if (Math.abs(edge) >= PROP_EDGE_THRESHOLD) { if (!bestProp ||
Math.abs(edge) > Math.abs(bestProp.edge)) bestProp = … }` block. -/
def considerCand (best : Option BestProp) (c : PropCand) : Option BestProp :=
  if candQualifies c then
    match best with
    | none => some (mkBestProp c)
    | some b => if |b.edge| < |candEdge c| then some (mkBestProp c) else some b
  else best

/-- The three candidate checks of one loop iteration, in source order:
points, then assists, then rebounds. -/
def candidatesOfPlayer (tp : TaggedProjection) : List PropCand :=
  [{ player := tp, stat := PropStat.points },
   { player := tp, stat := PropStat.assists },
   { player := tp, stat := PropStat.rebounds }]

/-- All candidates of the scan, in encounter order. -/
def candidatesOf (ps : List TaggedProjection) : List PropCand :=
  ps.flatMap candidatesOfPlayer

/-- One iteration of the `for (const player of allProjections)` loop. -/
def considerPlayer (best : Option BestProp) (tp : TaggedProjection) : Option BestProp :=
  (candidatesOfPlayer tp).foldl considerCand best

/-- The full prop scan of `generateDailyPick`. -/
def bestPropOf (ps : List TaggedProjection) : Option BestProp :=
  ps.foldl considerPlayer none

inductive PickType where
  | propOver
  | propUnder
  | moneylineValue
deriving DecidableEq, Repr

/-- The `title` string of a `DailyPick`, modelled structurally: either
`"<player> OVER/UNDER <line> <stat>"` or `"<alias> Moneyline"`. -/
inductive PickTitle where
  | prop (playerName : String) (t : OverUnder) (line : ℚ) (stat : PropStat)
  | moneyline (teamAlias : String)
deriving DecidableEq, Repr

/-- `DailyPick` (the `reasoning` display string of the source, a pure
interpolation of fields already present here, is omitted). -/
structure DailyPick where
  type : PickType
  title : PickTitle
  confidenceScore : ℤ
  edgePercentage : ℚ
  bookmakerOdd : ℚ
  projection : Option ℚ
  line : Option ℚ
  playerName : Option String
  teamAlias : Option String
deriving DecidableEq, Repr

/-- `generateDailyPick(homeProjections, awayProjections, homeAlias,
awayAlias, probData)`: priority 1 scans player props for
`|edge| ≥ 12`, priority 2 compares the model win probability against a
fixed implied probability (58 if `homeWinProb ≥ 50` else 45 for home, the
complement for away), priority 3 is no bet. -/
def generateDailyPick (homeProjections awayProjections : List PlayerProjection)
    (homeAlias awayAlias : String) (homeWinProb : ℚ) : Option DailyPick :=
  let allProjections := homeProjections.map (tagWith homeAlias)
    ++ awayProjections.map (tagWith awayAlias)
  match bestPropOf allProjections with
  | some bestProp =>
    let absEdge := |bestProp.edge|
    some { type := if bestProp.type = OverUnder.over then PickType.propOver else PickType.propUnder
           title := PickTitle.prop bestProp.player.proj.playerName bestProp.type
             (roundToTenth bestProp.line) bestProp.stat
           confidenceScore := min 10 (jsRound (5 + absEdge / 5))
           edgePercentage := roundToTenth absEdge
           bookmakerOdd := 19/10
           projection := some bestProp.projection
           line := some bestProp.line
           playerName := some bestProp.player.proj.playerName
           teamAlias := some bestProp.player.teamAlias }
  | none =>
    let homeImpliedProb : ℚ := if 50 ≤ homeWinProb then 58 else 45
    let awayImpliedProb := 100 - homeImpliedProb
    let homeEdge := homeWinProb - homeImpliedProb
    let awayEdge := (100 - homeWinProb) - awayImpliedProb
    if MONEYLINE_EDGE_THRESHOLD ≤ homeEdge then
      some { type := PickType.moneylineValue
             title := PickTitle.moneyline homeAlias
             confidenceScore := min 10 (jsRound (5 + homeEdge / 4))
             edgePercentage := roundToTenth homeEdge
             bookmakerOdd := if 60 ≤ homeWinProb then 165/100 else 185/100
             projection := none
             line := none
             playerName := none
             teamAlias := some homeAlias }
    else if MONEYLINE_EDGE_THRESHOLD ≤ awayEdge then
      some { type := PickType.moneylineValue
             title := PickTitle.moneyline awayAlias
             confidenceScore := min 10 (jsRound (5 + awayEdge / 4))
             edgePercentage := roundToTenth awayEdge
             bookmakerOdd := if 60 ≤ 100 - homeWinProb then 165/100 else 210/100
             projection := none
             line := none
             playerName := none
             teamAlias := some awayAlias }
    else none

-- ---------------------------------------------------------------------------
-- Helper lemmas about the adjustments map.
-- ---------------------------------------------------------------------------

theorem mapGet_map_set_ne (m : AdjMap) (k k' : String) (v : JsNum) (hne : k' ≠ k) :
    mapGet (m.map (fun e => if e.1 == k then (k, v) else e)) k' = mapGet m k' := by
  induction m with
  | nil => rfl
  | cons e m ih =>
    by_cases hk : (e.1 == k) = true
    · have h1 : e.1 = k := by exact beq_iff_eq.mp hk
      have h2 : (k == k') = false := by
        simp only [beq_eq_false_iff_ne]
        exact fun h => hne h.symm
      have h3 : (e.1 == k') = false := by
        simp only [beq_eq_false_iff_ne, h1]
        exact fun h => hne h.symm
      simp only [mapGet, List.map_cons, hk, if_true, List.find?_cons, h2, h3] at *
      exact ih
    · simp only [mapGet, List.map_cons, hk, Bool.false_eq_true, if_false, List.find?_cons] at *
      by_cases h4 : (e.1 == k') = true
      · simp [h4]
      · simp only [h4] at *
        exact ih

theorem find?_map_set_self (m : AdjMap) (k : String) (v : JsNum)
    (h : m.any (fun e => e.1 == k) = true) :
    (m.map (fun e => if e.1 == k then (k, v) else e)).find? (fun e => e.1 == k) = some (k, v) := by
  induction m with
  | nil => simp at h
  | cons e m ih =>
    by_cases hk : (e.1 == k) = true
    · simp only [List.map_cons, hk, if_true]
      exact List.find?_cons_of_pos _ (by simp)
    · simp only [List.any_cons, hk, Bool.false_or] at h
      simp only [List.map_cons, hk, Bool.false_eq_true, if_false]
      rw [List.find?_cons_of_neg _ (by simp [hk])]
      exact ih h

theorem mapGet_mapSet_self (m : AdjMap) (k : String) (v : JsNum) :
    mapGet (mapSet m k v) k = some v := by
  unfold mapSet
  split
  · rename_i h
    unfold mapGet
    rw [find?_map_set_self m k v h]
    rfl
  · unfold mapGet
    rw [List.find?_append]
    rename_i h
    have hnone : m.find? (fun e => e.1 == k) = none := by
      rw [List.find?_eq_none]
      intro e he hc
      apply h
      rw [List.any_eq_true]
      exact ⟨e, he, hc⟩
    simp [hnone, List.find?_cons_of_pos]

theorem mapGet_mapSet_ne (m : AdjMap) (k k' : String) (v : JsNum) (hne : k' ≠ k) :
    mapGet (mapSet m k v) k' = mapGet m k' := by
  unfold mapSet
  split
  · exact mapGet_map_set_ne m k k' v hne
  · unfold mapGet
    rw [List.find?_append]
    have h2 : (k == k') = false := by
      simp only [beq_eq_false_iff_ne]
      exact fun h => hne h.symm
    cases hm : m.find? (fun e => e.1 == k') with
    | some e => simp [hm]
    | none => simp [hm, List.find?_cons, h2]

/-- Folding `mapSet` over a list of players with distinct ids behaves like a
pointwise functional update. -/
theorem mapGet_foldl_set (f : PlayerData → JsNum) :
    ∀ (l : List PlayerData) (m : AdjMap) (k : String),
      (l.map (fun p => p.id)).Nodup →
      mapGet (l.foldl (fun m p => mapSet m p.id (f p)) m) k =
        (match l.find? (fun p => p.id == k) with
         | some p => some (f p)
         | none => mapGet m k) := by
  intro l
  induction l with
  | nil => intro m k _; rfl
  | cons p l ih =>
    intro m k hnd
    simp only [List.map_cons, List.nodup_cons] at hnd
    obtain ⟨hpid, hnd'⟩ := hnd
    simp only [List.foldl_cons]
    rw [ih _ k hnd']
    by_cases hk : (p.id == k) = true
    · have hpk : p.id = k := beq_iff_eq.mp hk
      have hlnone : l.find? (fun q => q.id == k) = none := by
        rw [List.find?_eq_none]
        intro q hq hqk
        exact hpid (by
          rw [← hpk] at hqk
          have : q.id = p.id := beq_iff_eq.mp hqk
          rw [← this]
          exact List.mem_map_of_mem _ hq)
      rw [List.find?_cons_of_pos _ (by simp [hk])]
      simp only [hlnone]
      subst hpk
      exact mapGet_mapSet_self m p.id (f p)
    · rw [List.find?_cons_of_neg _ (by simp [hk])]
      cases hl : l.find? (fun q => q.id == k) with
      | some q => simp [hl]
      | none =>
        simp only [hl]
        exact mapGet_mapSet_ne m p.id k (f p) (fun h => hk (by simp [h]))

/-- In a list of players with pairwise-distinct ids, searching for a member's
id finds exactly that member. -/
theorem find?_id_self {l : List PlayerData} (hnd : (l.map (fun p => p.id)).Nodup)
    {p : PlayerData} (hp : p ∈ l) :
    l.find? (fun q => q.id == p.id) = some p := by
  induction l with
  | nil => cases hp
  | cons q l ih =>
    simp only [List.map_cons, List.nodup_cons] at hnd
    obtain ⟨hqid, hnd'⟩ := hnd
    rcases List.mem_cons.mp hp with h | h
    · subst h
      exact List.find?_cons_of_pos _ (by simp)
    · have hne : (q.id == p.id) = false := by
        simp only [beq_eq_false_iff_ne]
        intro hc
        exact hqid (hc ▸ List.mem_map_of_mem _ h)
      rw [List.find?_cons_of_neg _ (by simp [hne])]
      exact ih hnd' h

-- ---------------------------------------------------------------------------
-- Characterization of `calculateParetoAdjustment`.
-- ---------------------------------------------------------------------------

/-- The active players of a roster, in roster order. -/
def activeRoster (roster : List PlayerData) (injuries : List Injury) : List PlayerData :=
  roster.filter (fun p => !(unavailB injuries p))

/-- Total usage share of the active players (`totalActiveUsage`). -/
def activeUsage (roster : List PlayerData) (injuries : List Injury) : ℚ :=
  ((activeRoster roster injuries).map (fun p => p.usage)).sum

/-- Total usage share of the unavailable Pareto-core players
(`totalMissingUsage`). -/
def missingUsage (roster : List PlayerData) (injuries : List Injury) : ℚ :=
  ((roster.filter (fun p => unavailB injuries p && (paretoCoreIds roster).contains p.id)).map
    (fun p => p.usage)).sum

/-- Total usage share of the whole roster. -/
def totalUsage (roster : List PlayerData) : ℚ :=
  (roster.map (fun p => p.usage)).sum

/-- Total usage share of the unavailable players outside the Pareto core. -/
def nonCoreUnavailableUsage (roster : List PlayerData) (injuries : List Injury) : ℚ :=
  ((roster.filter (fun p => unavailB injuries p && !((paretoCoreIds roster).contains p.id))).map
    (fun p => p.usage)).sum

/-- The roster pass accumulates exactly the active players, their total
usage, the unavailable-core usage, and zeroes out the unavailable players'
map entries. -/
theorem paretoPass_spec (coreIds : List String) (injuries : List Injury) :
    ∀ (l : List PlayerData) (st : ParetoPass),
      (l.foldl (paretoStep coreIds injuries) st).actives
          = st.actives ++ l.filter (fun p => !(unavailB injuries p)) ∧
      (l.foldl (paretoStep coreIds injuries) st).active
          = st.active + ((l.filter (fun p => !(unavailB injuries p))).map (fun p => p.usage)).sum ∧
      (l.foldl (paretoStep coreIds injuries) st).missing
          = st.missing + ((l.filter (fun p => unavailB injuries p && coreIds.contains p.id)).map
              (fun p => p.usage)).sum ∧
      ∀ k, mapGet (l.foldl (paretoStep coreIds injuries) st).adj k
          = if (l.filter (fun p => unavailB injuries p)).any (fun p => p.id == k) then
              some (JsNum.num 0)
            else mapGet st.adj k := by
  intro l
  induction l with
  | nil => intro st; refine ⟨by simp, by simp, by simp, fun k => by simp⟩
  | cons p l ih =>
    intro st
    by_cases hu : unavailB injuries p = true
    · have hstep : paretoStep coreIds injuries st p =
          { st with
            missing := st.missing + (if coreIds.contains p.id then p.usage else 0),
            adj := mapSet st.adj p.id (JsNum.num 0) } := by
        unfold paretoStep; rw [if_pos hu]
      obtain ⟨h1, h2, h3, h4⟩ := ih (paretoStep coreIds injuries st p)
      refine ⟨?_, ?_, ?_, ?_⟩
      · rw [List.foldl_cons, h1, hstep]
        simp [List.filter_cons, hu]
      · rw [List.foldl_cons, h2, hstep]
        simp [List.filter_cons, hu]
      · rw [List.foldl_cons, h3, hstep]
        by_cases hc : coreIds.contains p.id = true
        · have hm : p.id ∈ coreIds := by simpa using hc
          simp [List.filter_cons, hu, hc, hm, add_assoc]
        · have hm : p.id ∉ coreIds := by simpa using hc
          simp [List.filter_cons, hu, hc, hm]
      · intro k
        rw [List.foldl_cons, h4 k, hstep]
        by_cases hk : (p.id == k) = true
        · have hpk : p.id = k := beq_iff_eq.mp hk
          by_cases ha : (l.filter (fun q => unavailB injuries q)).any (fun q => q.id == k) = true
          · simp [List.filter_cons, hu, List.any_cons, hk, ha]
          · simp only [ha, Bool.false_eq_true, if_false]
            simp only [List.filter_cons, hu, if_true, List.any_cons, hk, Bool.true_or, if_pos]
            subst hpk
            exact mapGet_mapSet_self st.adj p.id (JsNum.num 0)
        · have hne : ¬ k = p.id := fun h => by simp [h] at hk
          rw [mapGet_mapSet_ne st.adj p.id k (JsNum.num 0) hne]
          simp [List.filter_cons, hu, List.any_cons, hk]
    · have hstep : paretoStep coreIds injuries st p =
          { st with actives := st.actives ++ [p], active := st.active + p.usage } := by
        unfold paretoStep; rw [if_neg (by simp [hu])]
      obtain ⟨h1, h2, h3, h4⟩ := ih (paretoStep coreIds injuries st p)
      refine ⟨?_, ?_, ?_, ?_⟩
      · rw [List.foldl_cons, h1, hstep]
        simp [List.filter_cons, hu]
      · rw [List.foldl_cons, h2, hstep]
        simp [List.filter_cons, hu, add_assoc]
      · rw [List.foldl_cons, h3, hstep]
        simp [List.filter_cons, hu]
      · intro k
        rw [List.foldl_cons, h4 k, hstep]
        simp [List.filter_cons, hu]

/-- Full characterization of the multipliers map on a roster with distinct
player ids: an unavailable player maps to `0`; when redistribution is in
effect an active player maps to the JS quotient
`(usage + missingUsage × (usage / activeUsage)) / usage`; otherwise an
active player keeps the default `1`. -/
theorem calculateParetoAdjustment_get (roster : List PlayerData) (injuries : List Injury)
    (hnd : (roster.map (fun p => p.id)).Nodup) (p : PlayerData) (hp : p ∈ roster) :
    mapGet (calculateParetoAdjustment roster injuries) p.id =
      some (if unavailB injuries p then JsNum.num 0
            else if 0 < missingUsage roster injuries ∧ 0 < activeUsage roster injuries then
              jsDiv (p.usage + missingUsage roster injuries * (p.usage / activeUsage roster injuries))
                p.usage
            else JsNum.num 1) := by
  have hlen : ¬ roster.length = 0 := by
    intro h
    rw [List.length_eq_zero] at h
    subst h; cases hp
  obtain ⟨h1, h2, h3, h4⟩ := paretoPass_spec (paretoCoreIds roster) injuries roster
      ⟨roster.foldl (fun m q => mapSet m q.id (JsNum.num 1)) [], [], 0, 0⟩
  have hmiss : (roster.foldl (paretoStep (paretoCoreIds roster) injuries)
      ⟨roster.foldl (fun m q => mapSet m q.id (JsNum.num 1)) [], [], 0, 0⟩).missing
      = missingUsage roster injuries := by
    rw [h3]; simp [missingUsage]
  have hactv : (roster.foldl (paretoStep (paretoCoreIds roster) injuries)
      ⟨roster.foldl (fun m q => mapSet m q.id (JsNum.num 1)) [], [], 0, 0⟩).active
      = activeUsage roster injuries := by
    rw [h2]; simp [activeUsage, activeRoster]
  have hacts : (roster.foldl (paretoStep (paretoCoreIds roster) injuries)
      ⟨roster.foldl (fun m q => mapSet m q.id (JsNum.num 1)) [], [], 0, 0⟩).actives
      = activeRoster roster injuries := by
    rw [h1]; simp [activeRoster]
  simp only [calculateParetoAdjustment]
  rw [if_neg hlen, hmiss, hactv, hacts]
  by_cases hcond : 0 < missingUsage roster injuries ∧ 0 < activeUsage roster injuries
  · rw [if_pos hcond]
    have hndA : ((activeRoster roster injuries).map (fun q => q.id)).Nodup :=
      List.Nodup.sublist (List.Sublist.map _ (List.filter_sublist roster)) hnd
    rw [mapGet_foldl_set
      (fun q => jsDiv (q.usage + missingUsage roster injuries *
        (q.usage / activeUsage roster injuries)) q.usage)
      (activeRoster roster injuries) _ p.id hndA]
    by_cases hu : unavailB injuries p = true
    · have hfind : (activeRoster roster injuries).find? (fun q => q.id == p.id) = none := by
        rw [List.find?_eq_none]
        intro q hq hqk
        have hq' : q ∈ roster := List.mem_of_mem_filter hq
        have hqp : q = p := List.inj_on_of_nodup_map hnd hq' hp (beq_iff_eq.mp hqk)
        subst hqp
        have := List.of_mem_filter hq
        simp [hu] at this
      simp only [hfind]
      rw [h4 p.id]
      have hany : (roster.filter (fun q => unavailB injuries q)).any (fun q => q.id == p.id)
          = true := by
        rw [List.any_eq_true]
        exact ⟨p, List.mem_filter.mpr ⟨hp, hu⟩, by simp⟩
      rw [if_pos hany]
      simp [hu]
    · have hpA : p ∈ activeRoster roster injuries :=
        List.mem_filter.mpr ⟨hp, by simp [hu]⟩
      rw [find?_id_self hndA hpA]
      simp [hu, hcond]
  · rw [if_neg hcond]
    rw [h4 p.id]
    by_cases hu : unavailB injuries p = true
    · have hany : (roster.filter (fun q => unavailB injuries q)).any (fun q => q.id == p.id)
          = true := by
        rw [List.any_eq_true]
        exact ⟨p, List.mem_filter.mpr ⟨hp, hu⟩, by simp⟩
      rw [if_pos hany]
      simp [hu]
    · have hany : (roster.filter (fun q => unavailB injuries q)).any (fun q => q.id == p.id)
          = false := by
        by_contra hc
        rw [Bool.not_eq_false, List.any_eq_true] at hc
        obtain ⟨q, hq, hqk⟩ := hc
        have hq' : q ∈ roster := List.mem_of_mem_filter hq
        have hqp : q = p := List.inj_on_of_nodup_map hnd hq' hp (beq_iff_eq.mp hqk)
        subst hqp
        have := List.of_mem_filter hq
        simp [this] at hu
      rw [if_neg (by simp [hany])]
      rw [mapGet_foldl_set (fun _ => JsNum.num 1) roster [] p.id hnd]
      rw [find?_id_self hnd hp]
      simp [hu, hcond]

/-- `mapSet` preserves any property of the stored values. -/
theorem mapGet_mapSet_prop (P : JsNum → Prop) (m : AdjMap) (k : String) (v : JsNum)
    (hv : P v) (hm : ∀ k' v', mapGet m k' = some v' → P v') :
    ∀ k' v', mapGet (mapSet m k v) k' = some v' → P v' := by
  intro k' v' h
  by_cases hk : k' = k
  · subst hk
    rw [mapGet_mapSet_self] at h
    cases h
    exact hv
  · rw [mapGet_mapSet_ne m k k' v hk] at h
    exact hm k' v' h

/-- The multipliers map never stores `Infinity` or `-Infinity`: the one JS
division has a numerator that vanishes whenever its denominator does, so a
zero denominator yields `NaN`, never a signed infinity. -/
theorem calculateParetoAdjustment_values (roster : List PlayerData) (injuries : List Injury) :
    ∀ k v, mapGet (calculateParetoAdjustment roster injuries) k = some v →
      v ≠ JsNum.inf ∧ v ≠ JsNum.ninf := by
  have pinit : ∀ (l : List PlayerData) (m : AdjMap),
      (∀ k v, mapGet m k = some v → v ≠ JsNum.inf ∧ v ≠ JsNum.ninf) →
      ∀ k v, mapGet (l.foldl (fun m q => mapSet m q.id (JsNum.num 1)) m) k = some v →
        v ≠ JsNum.inf ∧ v ≠ JsNum.ninf := by
    intro l
    induction l with
    | nil => intro m hm; exact hm
    | cons q l ih =>
      intro m hm
      rw [List.foldl_cons]
      exact ih _ (mapGet_mapSet_prop _ m q.id (JsNum.num 1) (by simp) hm)
  have ppass : ∀ (l : List PlayerData) (st : ParetoPass),
      (∀ k v, mapGet st.adj k = some v → v ≠ JsNum.inf ∧ v ≠ JsNum.ninf) →
      ∀ k v, mapGet (l.foldl (paretoStep (paretoCoreIds roster) injuries) st).adj k = some v →
        v ≠ JsNum.inf ∧ v ≠ JsNum.ninf := by
    intro l
    induction l with
    | nil => intro st hm; exact hm
    | cons q l ih =>
      intro st hm
      rw [List.foldl_cons]
      apply ih
      unfold paretoStep
      by_cases hu : unavailB injuries q = true
      · rw [if_pos hu]
        exact mapGet_mapSet_prop _ st.adj q.id (JsNum.num 0) (by simp) hm
      · rw [if_neg (by simp [hu])]
        exact hm
  have pdiv : ∀ q : PlayerData, ∀ M A : ℚ,
      jsDiv (q.usage + M * (q.usage / A)) q.usage ≠ JsNum.inf ∧
      jsDiv (q.usage + M * (q.usage / A)) q.usage ≠ JsNum.ninf := by
    intro q M A
    unfold jsDiv
    by_cases hz : q.usage = 0
    · rw [if_pos hz]
      rw [if_pos (by rw [hz]; simp)]
      simp
    · rw [if_neg hz]
      simp
  have pred : ∀ (l : List PlayerData) (m : AdjMap) (M A : ℚ),
      (∀ k v, mapGet m k = some v → v ≠ JsNum.inf ∧ v ≠ JsNum.ninf) →
      ∀ k v, mapGet (l.foldl (fun m q =>
          mapSet m q.id (jsDiv (q.usage + M * (q.usage / A)) q.usage)) m) k = some v →
        v ≠ JsNum.inf ∧ v ≠ JsNum.ninf := by
    intro l
    induction l with
    | nil => intro m M A hm; exact hm
    | cons q l ih =>
      intro m M A hm
      rw [List.foldl_cons]
      exact ih _ M A (mapGet_mapSet_prop _ m q.id _ (pdiv q M A) hm)
  intro k v
  simp only [calculateParetoAdjustment]
  by_cases hlen : roster.length = 0
  · rw [if_pos hlen]
    exact pinit roster [] (by intro k' v' h; simp [mapGet] at h) k v
  · rw [if_neg hlen]
    have hbase : ∀ k' v', mapGet (roster.foldl (paretoStep (paretoCoreIds roster) injuries)
        ⟨roster.foldl (fun m q => mapSet m q.id (JsNum.num 1)) [], [], 0, 0⟩).adj k' = some v' →
        v' ≠ JsNum.inf ∧ v' ≠ JsNum.ninf := by
      apply ppass
      exact pinit roster [] (by intro k' v' h; simp [mapGet] at h)
    split
    · exact pred _ _ _ _ hbase k v
    · exact hbase k v

-- ---------------------------------------------------------------------------
-- List-sum helper lemmas.
-- ---------------------------------------------------------------------------

theorem sum_map_addQ {α : Type} (l : List α) (f g : α → ℚ) :
    (l.map (fun x => f x + g x)).sum = (l.map f).sum + (l.map g).sum := by
  induction l with
  | nil => simp
  | cons x l ih => simp [ih]; ring

theorem sum_filter_split {α : Type} (l : List α) (pr : α → Bool) (f : α → ℚ) :
    ((l.filter pr).map f).sum + ((l.filter (fun x => !(pr x))).map f).sum = (l.map f).sum := by
  induction l with
  | nil => simp
  | cons x l ih =>
    by_cases hx : pr x = true
    · simp [List.filter_cons, hx, ← ih]
      ring
    · simp [List.filter_cons, hx, ← ih]
      ring

theorem sum_filter_and_split {α : Type} (l : List α) (pr q : α → Bool) (f : α → ℚ) :
    ((l.filter (fun x => pr x && q x)).map f).sum
      + ((l.filter (fun x => pr x && !(q x))).map f).sum
      = ((l.filter pr).map f).sum := by
  induction l with
  | nil => simp
  | cons x l ih =>
    by_cases hx : pr x = true
    · by_cases hq : q x = true
      · simp [List.filter_cons, hx, hq, ← ih]
        ring
      · simp [List.filter_cons, hx, hq, ← ih]
        ring
    · simp [List.filter_cons, hx, ← ih]

/-- A concrete player record used by the counterexamples. -/
def mkPlayer (id : String) (usage basePoints : ℚ) : PlayerData :=
  { id := id, name := id, team := "T", position := "G", usage := usage,
    basePoints := basePoints, synergyStats := none }

def c2CexRoster : List PlayerData := [mkPlayer "A" (2/5) 25]

def c2CexInjuries : List Injury := [{ playerId := "A", status := InjStatus.out }]

/-- C2 counterexample: with the one-player roster `[A (usage 0.4)]` and `A`
ruled `Out`, the active-player list is empty, so the left side of the
claimed conservation equation is the empty sum `0`, while the claimed right
side (`total usage − non-core unavailable usage`) is `0.4`: the out core
player's usage is reallocated to nobody.  The claim, quantified over every
roster and injury list, is therefore false. -/
theorem c2_counterexample :
    calculateParetoAdjustment c2CexRoster c2CexInjuries = [("A", JsNum.num 0)] ∧
    activeRoster c2CexRoster c2CexInjuries = [] ∧
    (0 : ℚ) ≠ totalUsage c2CexRoster - nonCoreUnavailableUsage c2CexRoster c2CexInjuries := by
  have hceil : ⌈PARETO_CORE_PERCENTAGE⌉ = 1 := by
    rw [PARETO_CORE_PERCENTAGE, Int.ceil_eq_iff]
    norm_num
  refine ⟨?_, ?_, ?_⟩ <;>
    norm_num +decide [hceil, calculateParetoAdjustment, paretoStep, paretoCoreIds,
      paretoTopCount, sortByUsageDesc, insertByUsage, unavailB, findInjury, mapSet, mapGet,
      jsDiv, mkPlayer, c2CexRoster, c2CexInjuries, activeRoster, totalUsage,
      nonCoreUnavailableUsage, List.find?, List.any, List.contains, List.foldl, List.filter,
      String.reduceEq, String.reduceBEq]

/-- The finite multiplier an active player receives (the rational value of
the `jsDiv` quotient of `calculateParetoAdjustment` when redistribution is
in effect, `1` otherwise). -/
def conservedMult (roster : List PlayerData) (injuries : List Injury) (pid : String) : ℚ :=
  if 0 < missingUsage roster injuries ∧ 0 < activeUsage roster injuries then
    (match (activeRoster roster injuries).find? (fun q => q.id == pid) with
     | some q => (q.usage + missingUsage roster injuries *
         (q.usage / activeUsage roster injuries)) / q.usage
     | none => 1)
  else 1

/-- C2 (amended): on a roster with distinct ids, all-positive usage shares
and at least one available player, the multipliers returned by
`calculateParetoAdjustment` are actual numbers on the active players and
conserve usage exactly: the sum over active players of `usage × multiplier`
equals the total roster usage minus the usage of unavailable players outside
the Pareto core. -/
theorem pareto_redistribution_conserves_usage (roster : List PlayerData) (injuries : List Injury)
    (hnd : (roster.map (fun p => p.id)).Nodup)
    (hu : ∀ p ∈ roster, 0 < p.usage)
    (hact : ∃ p ∈ roster, unavailB injuries p = false) :
    ∃ mult : String → ℚ,
      (∀ p ∈ activeRoster roster injuries,
        mapGet (calculateParetoAdjustment roster injuries) p.id = some (JsNum.num (mult p.id))) ∧
      ((activeRoster roster injuries).map (fun p => p.usage * mult p.id)).sum
        = totalUsage roster - nonCoreUnavailableUsage roster injuries := by
  have hndA : ((activeRoster roster injuries).map (fun q => q.id)).Nodup :=
    List.Nodup.sublist (List.Sublist.map _ (List.filter_sublist roster)) hnd
  have hApos : 0 < activeUsage roster injuries := by
    obtain ⟨p, hp, hpav⟩ := hact
    have hpA : p ∈ activeRoster roster injuries := List.mem_filter.mpr ⟨hp, by simp [hpav]⟩
    have hmem : p.usage ∈ (activeRoster roster injuries).map (fun q => q.usage) :=
      List.mem_map_of_mem _ hpA
    have hnn : ∀ x ∈ (activeRoster roster injuries).map (fun q => q.usage), (0:ℚ) ≤ x := by
      intro x hx
      obtain ⟨q, hq, rfl⟩ := List.mem_map.mp hx
      exact le_of_lt (hu q (List.mem_of_mem_filter hq))
    calc (0:ℚ) < p.usage := hu p hp
      _ ≤ _ := List.single_le_sum hnn _ hmem
  have hMnn : 0 ≤ missingUsage roster injuries := by
    apply List.sum_nonneg
    intro x hx
    obtain ⟨q, hq, rfl⟩ := List.mem_map.mp hx
    exact le_of_lt (hu q (List.mem_of_mem_filter hq))
  have htot : missingUsage roster injuries + nonCoreUnavailableUsage roster injuries
      + activeUsage roster injuries = totalUsage roster := by
    have h1 := sum_filter_and_split roster (fun p => unavailB injuries p)
      (fun p => (paretoCoreIds roster).contains p.id) (fun p => p.usage)
    have h2 := sum_filter_split roster (fun p => unavailB injuries p) (fun p => p.usage)
    unfold missingUsage nonCoreUnavailableUsage activeUsage activeRoster totalUsage
    rw [h1]
    rw [← h2]
  refine ⟨conservedMult roster injuries, ?_, ?_⟩
  · intro p hpA
    have hpR : p ∈ roster := List.mem_of_mem_filter hpA
    have hpav : unavailB injuries p = false := by
      have := List.of_mem_filter hpA
      simpa using this
    rw [calculateParetoAdjustment_get roster injuries hnd p hpR]
    by_cases hcond : 0 < missingUsage roster injuries ∧ 0 < activeUsage roster injuries
    · have hpu : p.usage ≠ 0 := ne_of_gt (hu p hpR)
      simp only [conservedMult, hpav, Bool.false_eq_true, if_false, if_pos hcond,
        find?_id_self hndA hpA]
      unfold jsDiv
      rw [if_neg hpu]
    · simp [conservedMult, hpav, hcond]
  · by_cases hcond : 0 < missingUsage roster injuries ∧ 0 < activeUsage roster injuries
    · have hAne : activeUsage roster injuries ≠ 0 := ne_of_gt hApos
      have hmapeq : (activeRoster roster injuries).map
            (fun p => p.usage * conservedMult roster injuries p.id)
          = (activeRoster roster injuries).map (fun p =>
              p.usage + (missingUsage roster injuries / activeUsage roster injuries) * p.usage) := by
        apply List.map_congr_left
        intro p hpA
        have hpu : p.usage ≠ 0 := ne_of_gt (hu p (List.mem_of_mem_filter hpA))
        simp only [conservedMult, if_pos hcond, find?_id_self hndA hpA]
        field_simp
        ring
      rw [hmapeq, sum_map_addQ]
      rw [List.sum_map_mul_left]
      have hsum : ((activeRoster roster injuries).map (fun p => p.usage)).sum
          = activeUsage roster injuries := rfl
      rw [hsum]
      rw [div_mul_cancel₀ _ hAne]
      linarith [htot]
    · have hM0 : missingUsage roster injuries = 0 := by
        rcases not_and_or.mp hcond with h | h
        · linarith [hMnn]
        · exact absurd hApos h
      have hmapeq : (activeRoster roster injuries).map
            (fun p => p.usage * conservedMult roster injuries p.id)
          = (activeRoster roster injuries).map (fun p => p.usage) := by
        apply List.map_congr_left
        intro p hpA
        simp only [conservedMult, if_neg hcond, mul_one]
      rw [hmapeq]
      have hsum : ((activeRoster roster injuries).map (fun p => p.usage)).sum
          = activeUsage roster injuries := rfl
      rw [hsum]
      linarith [htot, hM0]

def c7Roster : List PlayerData := [mkPlayer "P1" (1/5) 10, mkPlayer "P2" (1/2) 25]

def c7Injuries : List Injury := [{ playerId := "P2", status := InjStatus.out }]

/-- Witness for C2 (amended) on the two-player roster with its top-usage
player `Out`. -/
theorem pareto_redistribution_conserves_usage_witness :
    ∃ mult : String → ℚ,
      (∀ p ∈ activeRoster c7Roster c7Injuries,
        mapGet (calculateParetoAdjustment c7Roster c7Injuries) p.id
          = some (JsNum.num (mult p.id))) ∧
      ((activeRoster c7Roster c7Injuries).map (fun p => p.usage * mult p.id)).sum
        = totalUsage c7Roster - nonCoreUnavailableUsage c7Roster c7Injuries :=
  pareto_redistribution_conserves_usage c7Roster c7Injuries
    (by decide)
    (by
      intro p hp
      simp only [c7Roster, List.mem_cons, List.not_mem_nil, or_false] at hp
      rcases hp with rfl | rfl <;> norm_num [mkPlayer])
    ⟨mkPlayer "P1" (1/5) 10, List.mem_cons_self _ _, by decide⟩

def c8Roster : List PlayerData := [mkPlayer "A" (2/5) 25, mkPlayer "B" (1/5) 15, mkPlayer "C" 0 5]

def c8Injuries : List Injury := [{ playerId := "A", status := InjStatus.out }]

/-- C8 failing input: roster `[A (usage 0.4), B (usage 0.2), C (usage 0)]`
with the core player `A` ruled `Out`.  Redistribution is in effect
(missing usage `0.4 > 0`, active usage `0.2 > 0`), and the active player
`C` of usage `0` receives the multiplier `(0 + 0.4 × (0 / 0.2)) / 0`,
which is JavaScript `NaN` — not a finite number as the claim (and the
spec's `DegenerateInputs` requirement) demands. -/
theorem c8_nan_multiplier :
    mapGet (calculateParetoAdjustment c8Roster c8Injuries) "C" = some JsNum.nan ∧
    unavailB c8Injuries (mkPlayer "C" 0 5) = false ∧
    0 < missingUsage c8Roster c8Injuries ∧ 0 < activeUsage c8Roster c8Injuries := by
  have hceil : ⌈(3:ℚ) * PARETO_CORE_PERCENTAGE⌉ = 1 := by
    rw [PARETO_CORE_PERCENTAGE, Int.ceil_eq_iff]
    norm_num
  have hact : activeRoster c8Roster c8Injuries = [mkPlayer "B" (1/5) 15, mkPlayer "C" 0 5] := by
    simp [activeRoster, c8Roster, c8Injuries, unavailB, findInjury, mkPlayer, List.filter,
      List.find?]
  refine ⟨?_, ?_, ?_, ?_⟩
  · norm_num +decide [hceil, calculateParetoAdjustment, paretoStep, paretoCoreIds,
      paretoTopCount, sortByUsageDesc, insertByUsage, unavailB, findInjury, mapSet, mapGet,
      jsDiv, mkPlayer, c8Roster, c8Injuries, List.find?, List.any, List.contains, List.foldl,
      List.filter]
  · simp [unavailB, findInjury, c8Injuries, mkPlayer, List.find?]
  · norm_num +decide [hceil, missingUsage, paretoCoreIds, paretoTopCount, sortByUsageDesc,
      insertByUsage, unavailB, findInjury, mkPlayer, c8Roster, c8Injuries, List.filter,
      List.find?, List.contains, List.any, List.foldl]
  · rw [activeUsage, hact]
    norm_num [mkPlayer]

-- ---------------------------------------------------------------------------
-- Claims about `calculatePlayerProjection` and `calculateEdge`.
-- ---------------------------------------------------------------------------

/-- An `Out` gate fires exactly when `injuryIsOut` holds; in that case the
whole projection is the fixed gate record. -/
theorem calculatePlayerProjection_not_out (player : PlayerData)
    (opp : Option TeamDefenseStats) (injuries : List Injury) (roster : List PlayerData)
    (b2b : Bool) (line : Option ℚ)
    (h : injuryIsOut (findInjury injuries player.id) = false) :
    calculatePlayerProjection player opp injuries roster b2b line
      = projectActivePlayer player opp injuries roster b2b line := by
  simp only [calculatePlayerProjection]
  rw [if_neg (by simp [h])]

/-- C1: for every player whose injury status is `Out`,
`calculatePlayerProjection` returns projection `0`, confidence `100`, the
inactive reason, no value flag and edge `0`, regardless of the opponent
defense, the injury list, the roster, the back-to-back flag and the market
line; no further adjustment step contributes to the result. -/
theorem out_player_gate (player : PlayerData) (opp : Option TeamDefenseStats)
    (injuries : List Injury) (roster : List PlayerData) (b2b : Bool) (line : Option ℚ)
    (h : injuryIsOut (findInjury injuries player.id) = true) :
    calculatePlayerProjection player opp injuries roster b2b line =
      { playerId := player.id, playerName := player.name, projectedPoints := 0,
        confidence := 100, reason := [Reason.inactive], isValueBet := false, edge := 0,
        vegasLine := line } := by
  simp only [calculatePlayerProjection]
  rw [if_pos (by simp [h])]

/-- Witness for C1 at a concrete `Out` player. -/
theorem out_player_gate_witness :
    calculatePlayerProjection (mkPlayer "A" 1 20) none
        [{ playerId := "A", status := InjStatus.out }] [mkPlayer "A" 1 20] false none =
      { playerId := "A", playerName := "A", projectedPoints := 0, confidence := 100,
        reason := [Reason.inactive], isValueBet := false, edge := 0, vegasLine := none } := by
  rw [out_player_gate (mkPlayer "A" 1 20) none
    [{ playerId := "A", status := InjStatus.out }] [mkPlayer "A" 1 20] false none
    (by simp [injuryIsOut, findInjury, List.find?, mkPlayer])]
  rfl

/-- C10 (implicit): for every player not gated as `Out`, the confidence lies
in `[40, 85]`: it starts at `85`, the three possible deductions total at
most `45`, nothing is ever added, and the documented clamp to `[30, 95]`
therefore never binds. -/
theorem confidence_bounds (player : PlayerData) (opp : Option TeamDefenseStats)
    (injuries : List Injury) (roster : List PlayerData) (b2b : Bool) (line : Option ℚ)
    (h : injuryIsOut (findInjury injuries player.id) = false) :
    40 ≤ (calculatePlayerProjection player opp injuries roster b2b line).confidence ∧
    (calculatePlayerProjection player opp injuries roster b2b line).confidence ≤ 85 := by
  rw [calculatePlayerProjection_not_out player opp injuries roster b2b line h]
  show 40 ≤ projectionConfidence b2b (volumeMultOf roster injuries player.id)
      (findInjury injuries player.id) ∧
    projectionConfidence b2b (volumeMultOf roster injuries player.id)
      (findInjury injuries player.id) ≤ 85
  simp only [projectionConfidence]
  constructor <;> (split <;> split <;> split <;> omega)

/-- Witness for C10 at a concrete healthy player. -/
theorem confidence_bounds_witness :
    40 ≤ (calculatePlayerProjection (mkPlayer "A" 1 20) none [] [] false none).confidence ∧
    (calculatePlayerProjection (mkPlayer "A" 1 20) none [] [] false none).confidence ≤ 85 :=
  confidence_bounds (mkPlayer "A" 1 20) none [] [] false none (by simp [injuryIsOut, findInjury])

/-- C4 counterexample: a projection `23` against line `26.5` has edge
`≈ −13.2%`, below `−10%` in signed value and beyond `10%` in absolute
value, yet the value-bet flag is `false`: the source compares the *signed*
edge against the threshold, so a projection far below the line never counts
as value, contradicting the claim's absolute-value reading. -/
theorem c4_counterexample :
    (calculateEdge 23 (53/2)).isValue = false ∧ (calculateEdge 23 (53/2)).edge ≤ -10 := by
  constructor
  · rw [calculateEdge, if_neg (by norm_num)]
    norm_num [VALUE_THRESHOLD]
  · rw [calculateEdge, if_neg (by norm_num)]
    norm_num

/-- C4 (amended): `calculateEdge` returns edge
`(projection − line) / line × 100` for a positive line, edge `0` and flag
`false` for a non-positive line, and sets the value flag exactly when the
*signed* relative edge is at least `+10%` (a projection 10% or more below
the line does not count); in particular projection `28.1` against line
`26.5` gives edge `320/53 ≈ +6.04%` without the flag, while projection
`30.0` gives edge `700/53 ≈ +13.2%` with the flag. -/
theorem calculateEdge_spec (projection vegasLine : ℚ) :
    (vegasLine ≤ 0 → calculateEdge projection vegasLine = { edge := 0, isValue := false }) ∧
    (0 < vegasLine →
      (calculateEdge projection vegasLine).edge = (projection - vegasLine) / vegasLine * 100 ∧
      ((calculateEdge projection vegasLine).isValue = true ↔
        1/10 ≤ (projection - vegasLine) / vegasLine)) ∧
    (calculateEdge (281/10) (53/2)).edge = 320/53 ∧
    (calculateEdge (281/10) (53/2)).isValue = false ∧
    (calculateEdge 30 (53/2)).edge = 700/53 ∧
    (calculateEdge 30 (53/2)).isValue = true := by
  refine ⟨?_, ?_, ?_, ?_, ?_, ?_⟩
  · intro hl
    rw [calculateEdge, if_pos hl]
  · intro hl
    rw [calculateEdge, if_neg (not_le.mpr hl)]
    exact ⟨rfl, by simp [VALUE_THRESHOLD]⟩
  · rw [calculateEdge, if_neg (by norm_num)]
    norm_num
  · rw [calculateEdge, if_neg (by norm_num)]
    norm_num [VALUE_THRESHOLD]
  · rw [calculateEdge, if_neg (by norm_num)]
    norm_num
  · rw [calculateEdge, if_neg (by norm_num)]
    norm_num [VALUE_THRESHOLD]

/-- Witness for C4 at a non-positive and a positive line. -/
theorem calculateEdge_spec_witness :
    calculateEdge 5 0 = { edge := 0, isValue := false } ∧
    (calculateEdge 33 30).edge = 10 ∧ (calculateEdge 33 30).isValue = true := by
  refine ⟨(calculateEdge_spec 5 0).1 (by norm_num), ?_, ?_⟩
  · rw [((calculateEdge_spec 33 30).2.1 (by norm_num)).1]
    norm_num
  · rw [((calculateEdge_spec 33 30).2.1 (by norm_num)).2]
    norm_num

/-- The per-play-type contribution stated by the specification: for a play
type of frequency `≥ 0.15`, `+0.10 × frequency` against a defense ranked
`≥ 25`, `−0.10 × frequency` against a defense ranked `≤ 5`, `0` for ranks
strictly between; play types with no defense-rank key contribute `0`. -/
def claimedMatchupContribution (od : TeamDefenseStats) (pt : SynergyPlayType) : ℚ :=
  match playTypeToDefenseKey pt.playType with
  | none => 0
  | some key =>
    if pt.frequency < 15/100 then 0
    else if WEAK_DEFENSE_RANK ≤ rankFor od.defenseRanks key then SYNERGY_BOOST * pt.frequency
    else if rankFor od.defenseRanks key ≤ ELITE_DEFENSE_RANK then -(SYNERGY_PENALTY * pt.frequency)
    else 0

/-- The matchup fold accumulates exactly the specified contributions. -/
theorem matchup_foldl_modifier (od : TeamDefenseStats) :
    ∀ (l : List SynergyPlayType) (st : MatchupState),
      (l.foldl (matchupStep od) st).totalModifier
        = st.totalModifier + (l.map (claimedMatchupContribution od)).sum := by
  intro l
  induction l with
  | nil => intro st; simp
  | cons pt l ih =>
    intro st
    rw [List.foldl_cons, ih]
    cases hkey : playTypeToDefenseKey pt.playType with
    | none =>
      simp only [matchupStep, hkey, List.map_cons, List.sum_cons, claimedMatchupContribution]
      ring
    | some key =>
      by_cases hf : pt.frequency < 15/100
      · simp only [matchupStep, hkey, if_pos hf, List.map_cons, List.sum_cons,
          claimedMatchupContribution]
        ring
      · simp only [matchupStep, hkey, if_neg hf, List.map_cons, List.sum_cons,
          claimedMatchupContribution]
        by_cases he : rankFor od.defenseRanks key ≤ ELITE_DEFENSE_RANK
        · have hw : ¬ WEAK_DEFENSE_RANK ≤ rankFor od.defenseRanks key := by
            simp only [ELITE_DEFENSE_RANK] at he
            simp only [WEAK_DEFENSE_RANK]
            omega
          simp only [if_pos he, if_neg hw]
          ring
        · by_cases hw : WEAK_DEFENSE_RANK ≤ rankFor od.defenseRanks key
          · simp only [if_neg he, if_pos hw]
            ring
          · simp only [if_neg he, if_neg hw]
            ring

/-- Concrete spot-up profile of E2E scenario C. -/
def spotupProfile : PlayerSynergyStats :=
  { playerId := "p", playerName := "P", team := "T",
    playTypes := [{ playType := "Spotup", ppp := 1, percentile := 50, frequency := 3/10,
                    possessions := 100 }] }

/-- Concrete opponent whose spot-up defense is ranked 28 (weak). -/
def weakSpotupDefense : TeamDefenseStats :=
  { teamId := "t", teamName := "Opp", teamAlias := "OPP",
    defenseRanks := { iso := 15, pnr := 15, spotup := 28, transition := 15, postup := 15,
                      overall := 18 } }

/-- C9: `calculateMatchupModifier` returns `1 +` the sum, over the player's
play types of frequency `≥ 0.15`, of `+0.10 × frequency` against a defense
ranked `≥ 25`, `−0.10 × frequency` against one ranked `≤ 5`, and `0` in
between (play types without a defense-rank key contribute nothing); a
missing synergy or defense profile yields modifier `1` with empty reasons;
and a spot-up frequency `0.30` against spot-up rank `28` contributes
exactly `+0.03`. -/
theorem matchup_modifier_spec :
    (∀ od, calculateMatchupModifier none od = { modifier := 1, reason := [] }) ∧
    (∀ ps, calculateMatchupModifier ps none = { modifier := 1, reason := [] }) ∧
    (∀ ps od, (calculateMatchupModifier (some ps) (some od)).modifier
      = 1 + (ps.playTypes.map (claimedMatchupContribution od)).sum) ∧
    calculateMatchupModifier (some spotupProfile) (some weakSpotupDefense)
      = { modifier := 1 + 1/10 * (3/10), reason := [MatchupNote.weak "OPP" "Spotup" 28] } := by
  refine ⟨fun od => rfl, fun ps => ?_, fun ps od => ?_, ?_⟩
  · cases ps <;> rfl
  · show (1 + (ps.playTypes.foldl (matchupStep od)
      { totalModifier := 0, totalFrequency := 0, reasons := [] }).totalModifier) = _
    rw [matchup_foldl_modifier od ps.playTypes]
    simp
  · have hkey : playTypeToDefenseKey "Spotup" = some DefKey.spotup := by decide
    norm_num [calculateMatchupModifier, matchupStep, spotupProfile, weakSpotupDefense,
      hkey, rankFor, ELITE_DEFENSE_RANK, WEAK_DEFENSE_RANK, SYNERGY_BOOST, SYNERGY_PENALTY,
      List.foldl]

def c6Roster : List PlayerData := [mkPlayer "A" (3/10) 20]

def c6Injuries : List Injury := [{ playerId := "A", status := InjStatus.dayToDay }]

/-- C6 counterexample: a Day-To-Day player is assigned multiplier `0` in the
adjustments map, yet `calculatePlayerProjection` projects him at his full
base average `20`, not `0`: the `|| 1.0` fall-back coerces the falsy `0`
multiplier to `1.0` and the multiplication step only runs for multipliers
`> 1.0`, so the claim "a player with multiplier 0 projects to 0" is
false. -/
theorem c6_counterexample :
    mapGet (calculateParetoAdjustment c6Roster c6Injuries) "A" = some (JsNum.num 0) ∧
    (calculatePlayerProjection (mkPlayer "A" (3/10) 20) none c6Injuries c6Roster
      false none).projectedPoints = 20 ∧ (20 : ℚ) ≠ 0 := by
  have hceil : ⌈PARETO_CORE_PERCENTAGE⌉ = 1 := by
    rw [PARETO_CORE_PERCENTAGE, Int.ceil_eq_iff]
    norm_num
  refine ⟨?_, ?_, by norm_num⟩
  · norm_num +decide [hceil, calculateParetoAdjustment, paretoStep, paretoCoreIds,
      paretoTopCount, sortByUsageDesc, insertByUsage, unavailB, findInjury, mapSet, mapGet,
      jsDiv, mkPlayer, c6Roster, c6Injuries, List.find?, List.any, List.contains, List.foldl,
      List.filter]
  · norm_num +decide [hceil, calculatePlayerProjection, projectActivePlayer, runningProjection,
      volumeMultOf, jsOrOne, jsTruthy, qOfJs, penaltyApplies, hasParetoPlayerOut,
      calculateMatchupModifier, injuryIsOut, injuryIsDayToDay, findInjury, unavailB,
      roundToTenth, calculateParetoAdjustment, paretoStep, paretoCoreIds, paretoTopCount,
      sortByUsageDesc, insertByUsage, mapSet, mapGet, jsDiv, mkPlayer, c6Roster, c6Injuries,
      List.find?, List.any, List.contains, List.foldl, List.filter, Int.floor_eq_iff]

/-- C6 (amended): the volume multiplier is applied only when it exceeds
`1.0`; a stored multiplier of `0` (every unavailable player, hence every
Day-To-Day player) is coerced to `1.0` by the `|| 1.0` fall-back, so a
Day-To-Day player in a roster with distinct ids is projected at his full
base volume — his projection is the base average times only the matchup and
fatigue factors — with confidence reduced by exactly `20` (to `55` on a
back-to-back, `65` otherwise). -/
theorem dtd_player_projects_full_volume (player : PlayerData) (opp : Option TeamDefenseStats)
    (injuries : List Injury) (roster : List PlayerData) (b2b : Bool) (line : Option ℚ)
    (hnd : (roster.map (fun p => p.id)).Nodup) (hp : player ∈ roster)
    (hdtd : injuryIsDayToDay (findInjury injuries player.id) = true) :
    volumeMultOf roster injuries player.id = 1 ∧
    (calculatePlayerProjection player opp injuries roster b2b line).projectedPoints
      = roundToTenth (player.basePoints
          * (calculateMatchupModifier player.synergyStats opp).modifier
          * (if b2b then 1 - B2B_PENALTY else 1)) ∧
    (calculatePlayerProjection player opp injuries roster b2b line).confidence
      = (if b2b then 55 else 65) := by
  obtain ⟨i, hfind, hstat⟩ : ∃ i, findInjury injuries player.id = some i ∧
      i.status = InjStatus.dayToDay := by
    cases hfi : findInjury injuries player.id with
    | none => rw [hfi] at hdtd; simp [injuryIsDayToDay] at hdtd
    | some i =>
      rw [hfi] at hdtd
      simp only [injuryIsDayToDay, decide_eq_true_eq] at hdtd
      exact ⟨i, rfl, hdtd⟩
  have hout : injuryIsOut (findInjury injuries player.id) = false := by
    rw [hfind]
    simp [injuryIsOut, hstat]
  have hunav : unavailB injuries player = true := by
    unfold unavailB
    rw [hfind]
    simp [hstat]
  have hvm : volumeMultOf roster injuries player.id = 1 := by
    unfold volumeMultOf
    rw [calculateParetoAdjustment_get roster injuries hnd player hp]
    simp [hunav, jsOrOne, jsTruthy, qOfJs]
  refine ⟨hvm, ?_, ?_⟩
  · rw [calculatePlayerProjection_not_out player opp injuries roster b2b line hout]
    show roundToTenth (runningProjection player opp injuries roster b2b) = _
    simp only [runningProjection]
    rw [hvm]
    rw [if_neg (show ¬ (1:ℚ) < 1 by norm_num)]
    have hpen : penaltyApplies roster injuries player.id = false := by
      unfold penaltyApplies
      rw [hfind]
      simp
    rw [hpen]
    simp only [Bool.false_eq_true, if_false]
    by_cases hm : (calculateMatchupModifier player.synergyStats opp).modifier ≠ 1
    · rw [if_pos hm]
      cases b2b <;> simp
    · rw [if_neg hm]
      rw [not_not] at hm
      rw [hm, mul_one]
      cases b2b <;> simp
  · rw [calculatePlayerProjection_not_out player opp injuries roster b2b line hout]
    show projectionConfidence b2b (volumeMultOf roster injuries player.id)
        (findInjury injuries player.id) = _
    rw [hvm, hfind]
    simp only [projectionConfidence]
    rw [if_neg (show ¬ (12/10 : ℚ) < 1 by norm_num)]
    have hdd : injuryIsDayToDay (some i) = true := by simp [injuryIsDayToDay, hstat]
    rw [if_pos hdd]
    cases b2b <;> decide

/-- Witness for C6 (amended) at the concrete Day-To-Day roster. -/
theorem dtd_player_projects_full_volume_witness :
    volumeMultOf c6Roster c6Injuries "A" = 1 ∧
    (calculatePlayerProjection (mkPlayer "A" (3/10) 20) none c6Injuries c6Roster
      false none).confidence = 65 := by
  have h := dtd_player_projects_full_volume (mkPlayer "A" (3/10) 20) none c6Injuries c6Roster
    false none (by simp [c6Roster]) (by simp [c6Roster])
    (by simp [injuryIsDayToDay, findInjury, c6Injuries, mkPlayer, List.find?])
  refine ⟨h.1, ?_⟩
  rw [h.2.2]
  norm_num

/-- C7: for every player not gated `Out`, the running projection factors as
base volume (multiplied by the redistribution multiplier exactly when it
exceeds `1.0`), times `1 − 0.15 = 0.85` exactly when some top-3-usage
teammate other than the player is `Out` while the player himself has no
injury-report entry, times the matchup modifier, times the fatigue factor —
so the penalty and a redistribution boost compound multiplicatively when
both trigger. -/
theorem core_loss_penalty_spec (player : PlayerData) (opp : Option TeamDefenseStats)
    (injuries : List Injury) (roster : List PlayerData) (b2b : Bool) (line : Option ℚ)
    (h : injuryIsOut (findInjury injuries player.id) = false) :
    (penaltyApplies roster injuries player.id = true ↔
      ((∃ q ∈ (sortByUsageDesc roster).take 3, q.id ≠ player.id ∧
          injuryIsOut (findInjury injuries q.id) = true) ∧
        findInjury injuries player.id = none)) ∧
    (calculatePlayerProjection player opp injuries roster b2b line).projectedPoints
      = roundToTenth ((if 1 < volumeMultOf roster injuries player.id then
            player.basePoints * volumeMultOf roster injuries player.id else player.basePoints)
          * (if penaltyApplies roster injuries player.id then 1 - PARETO_EFFICIENCY_PENALTY else 1)
          * (calculateMatchupModifier player.synergyStats opp).modifier
          * (if b2b then 1 - B2B_PENALTY else 1)) := by
  constructor
  · constructor
    · intro hpen
      unfold penaltyApplies at hpen
      rw [Bool.and_eq_true] at hpen
      obtain ⟨hcore, hnone⟩ := hpen
      have hnone' : findInjury injuries player.id = none := by
        cases hfi : findInjury injuries player.id with
        | none => rfl
        | some i => rw [hfi] at hnone; simp at hnone
      refine ⟨?_, hnone'⟩
      unfold hasParetoPlayerOut at hcore
      by_cases hlen : roster.length = 0
      · rw [if_pos hlen] at hcore; cases hcore
      · rw [if_neg hlen] at hcore
        rw [List.any_eq_true] at hcore
        obtain ⟨q, hq, hqout⟩ := hcore
        refine ⟨q, hq, ?_, hqout⟩
        intro hqid
        rw [hqid, hnone'] at hqout
        simp [injuryIsOut] at hqout
    · intro ⟨⟨q, hq, _, hqout⟩, hnone⟩
      unfold penaltyApplies
      rw [Bool.and_eq_true]
      constructor
      · unfold hasParetoPlayerOut
        have hlen : ¬ roster.length = 0 := by
          intro h0
          rw [List.length_eq_zero] at h0
          subst h0
          simp [sortByUsageDesc] at hq
        rw [if_neg hlen, List.any_eq_true]
        exact ⟨q, hq, hqout⟩
      · rw [hnone]
        rfl
  · rw [calculatePlayerProjection_not_out player opp injuries roster b2b line h]
    show roundToTenth (runningProjection player opp injuries roster b2b) = _
    simp only [runningProjection]
    by_cases hpen : penaltyApplies roster injuries player.id = true
    · rw [hpen]
      simp only [if_true]
      by_cases hm : (calculateMatchupModifier player.synergyStats opp).modifier ≠ 1
      · rw [if_pos hm]
        cases b2b <;> simp
      · rw [if_neg hm]
        rw [not_not] at hm
        rw [hm, mul_one]
        cases b2b <;> simp
    · rw [Bool.not_eq_true] at hpen
      rw [hpen]
      simp only [Bool.false_eq_true, if_false, mul_one]
      by_cases hm : (calculateMatchupModifier player.synergyStats opp).modifier ≠ 1
      · rw [if_pos hm]
        cases b2b <;> simp
      · rw [if_neg hm]
        rw [not_not] at hm
        rw [hm, mul_one]
        cases b2b <;> simp

/-- Witness for C7: teammate `P2` (top usage) is `Out`, `P1` has no injury
entry, so `P1`'s projection compounds the redistribution boost `3.5×` with
the `0.85` penalty: `10 × 3.5 × 0.85 = 29.75`, rounded to `29.8`. -/
theorem core_loss_penalty_spec_witness :
    penaltyApplies c7Roster c7Injuries "P1" = true ∧
    (calculatePlayerProjection (mkPlayer "P1" (1/5) 10) none c7Injuries c7Roster
      false none).projectedPoints = 149/5 := by
  have h := core_loss_penalty_spec (mkPlayer "P1" (1/5) 10) none c7Injuries c7Roster false none
    (by simp [injuryIsOut, findInjury, c7Injuries, mkPlayer, List.find?])
  have hceil : ⌈(2:ℚ) * PARETO_CORE_PERCENTAGE⌉ = 1 := by
    rw [PARETO_CORE_PERCENTAGE, Int.ceil_eq_iff]
    norm_num
  have hvm : volumeMultOf c7Roster c7Injuries "P1" = 7/2 := by
    norm_num +decide [hceil, volumeMultOf, jsOrOne, jsTruthy, qOfJs, calculateParetoAdjustment,
      paretoStep, paretoCoreIds, paretoTopCount, sortByUsageDesc, insertByUsage, unavailB,
      findInjury, mapSet, mapGet, jsDiv, mkPlayer, c7Roster, c7Injuries, List.find?, List.any,
      List.contains, List.foldl, List.filter]
  have hpen : penaltyApplies c7Roster c7Injuries "P1" = true := by
    norm_num +decide [penaltyApplies, hasParetoPlayerOut, sortByUsageDesc, insertByUsage,
      injuryIsOut, findInjury, mkPlayer, c7Roster, c7Injuries, List.find?, List.any,
      List.foldl, List.take]
  refine ⟨hpen, ?_⟩
  rw [h.2]
  have hmm : (calculateMatchupModifier (mkPlayer "P1" (1/5) 10).synergyStats none).modifier
      = 1 := rfl
  rw [hmm]
  show roundToTenth ((if 1 < volumeMultOf c7Roster c7Injuries "P1" then
      (10:ℚ) * volumeMultOf c7Roster c7Injuries "P1" else 10)
    * (if penaltyApplies c7Roster c7Injuries "P1" then 1 - PARETO_EFFICIENCY_PENALTY else 1)
    * 1 * 1) = 149/5
  rw [hvm, hpen]
  norm_num [PARETO_EFFICIENCY_PENALTY, roundToTenth, Int.floor_eq_iff]

-- ---------------------------------------------------------------------------
-- Characterization of the prop scan of `generateDailyPick`.
-- ---------------------------------------------------------------------------

theorem mkBestProp_edge (c : PropCand) : (mkBestProp c).edge = candEdge c := rfl

/-- A best-so-far candidate is never dropped. -/
theorem foldl_considerCand_ne_none :
    ∀ (l : List PropCand) (b : BestProp), l.foldl considerCand (some b) ≠ none := by
  intro l
  induction l with
  | nil => intro b h; cases h
  | cons c l ih =>
    intro b
    rw [List.foldl_cons]
    simp only [considerCand]
    by_cases hq : candQualifies c = true
    · rw [if_pos hq]
      by_cases hlt : |b.edge| < |candEdge c|
      · rw [if_pos hlt]; exact ih (mkBestProp c)
      · rw [if_neg hlt]; exact ih b
    · rw [if_neg hq]; exact ih b

/-- The player loop is the candidate loop over the flattened candidate
list. -/
theorem bestPropOf_eq_foldl_cands :
    ∀ (ps : List TaggedProjection) (acc : Option BestProp),
      ps.foldl considerPlayer acc = (candidatesOf ps).foldl considerCand acc := by
  intro ps
  induction ps with
  | nil => intro acc; rfl
  | cons tp ps ih =>
    intro acc
    rw [List.foldl_cons, ih]
    show _ = ((tp :: ps).flatMap candidatesOfPlayer).foldl considerCand acc
    rw [List.flatMap_cons, List.foldl_append]
    rfl

/-- Result of the candidate fold started from a best-so-far `b`: either `b`
survives and every qualifying candidate is no better, or the fold returns
the first candidate attaining the maximal absolute edge among qualifiers
that beat `b`. -/
theorem foldl_considerCand_some_spec :
    ∀ (l : List PropCand) (b b' : BestProp),
      l.foldl considerCand (some b) = some b' →
      (b' = b ∧ ∀ c ∈ l, candQualifies c = true → |candEdge c| ≤ |b.edge|) ∨
      (∃ c l₁ l₂, l = l₁ ++ c :: l₂ ∧ b' = mkBestProp c ∧ candQualifies c = true ∧
        |b.edge| < |candEdge c| ∧
        (∀ c' ∈ l₁, candQualifies c' = true → |candEdge c'| < |candEdge c|) ∧
        (∀ c' ∈ l₂, candQualifies c' = true → |candEdge c'| ≤ |candEdge c|)) := by
  intro l
  induction l with
  | nil =>
    intro b b' h
    left
    refine ⟨by cases h; rfl, ?_⟩
    intro c hc
    cases hc
  | cons c l ih =>
    intro b b' h
    rw [List.foldl_cons] at h
    simp only [considerCand] at h
    by_cases hq : candQualifies c = true
    · rw [if_pos hq] at h
      by_cases hlt : |b.edge| < |candEdge c|
      · rw [if_pos hlt] at h
        rcases ih (mkBestProp c) b' h with ⟨rfl, hall⟩ | ⟨d, l₁, l₂, rfl, hb', hdq, hdlt, hl₁, hl₂⟩
        · right
          refine ⟨c, [], l, by simp, rfl, hq, hlt, by simp, ?_⟩
          intro c' hc' hq'
          have := hall c' hc' hq'
          rwa [mkBestProp_edge] at this
        · right
          refine ⟨d, c :: l₁, l₂, by simp, hb', hdq, ?_, ?_, hl₂⟩
          · rw [mkBestProp_edge] at hdlt
            exact lt_trans hlt hdlt
          · intro c' hc'
            rcases List.mem_cons.mp hc' with rfl | hc''
            · intro _
              rw [mkBestProp_edge] at hdlt
              exact hdlt
            · exact hl₁ c' hc''
      · rw [if_neg hlt] at h
        rcases ih b b' h with ⟨rfl, hall⟩ | ⟨d, l₁, l₂, rfl, hb', hdq, hdlt, hl₁, hl₂⟩
        · left
          refine ⟨rfl, ?_⟩
          intro c' hc' hq'
          rcases List.mem_cons.mp hc' with rfl | hc''
          · exact le_of_not_lt hlt
          · exact hall c' hc'' hq'
        · right
          refine ⟨d, c :: l₁, l₂, by simp, hb', hdq, hdlt, ?_, hl₂⟩
          intro c' hc'
          rcases List.mem_cons.mp hc' with rfl | hc''
          · intro _
            exact lt_of_le_of_lt (le_of_not_lt hlt) hdlt
          · exact hl₁ c' hc''
    · rw [if_neg hq] at h
      rcases ih b b' h with ⟨rfl, hall⟩ | ⟨d, l₁, l₂, rfl, hb', hdq, hdlt, hl₁, hl₂⟩
      · left
        refine ⟨rfl, ?_⟩
        intro c' hc' hq'
        rcases List.mem_cons.mp hc' with rfl | hc''
        · exact absurd hq' hq
        · exact hall c' hc'' hq'
      · right
        refine ⟨d, c :: l₁, l₂, by simp, hb', hdq, hdlt, ?_, hl₂⟩
        intro c' hc'
        rcases List.mem_cons.mp hc' with rfl | hc''
        · intro hq'
          exact absurd hq' hq
        · exact hl₁ c' hc''

/-- Result of the candidate fold started from nothing: the first candidate
attaining the maximal absolute edge among the qualifiers. -/
theorem foldl_considerCand_none_spec :
    ∀ (l : List PropCand) (b' : BestProp),
      l.foldl considerCand none = some b' →
      ∃ c l₁ l₂, l = l₁ ++ c :: l₂ ∧ b' = mkBestProp c ∧ candQualifies c = true ∧
        (∀ c' ∈ l₁, candQualifies c' = true → |candEdge c'| < |candEdge c|) ∧
        (∀ c' ∈ l₂, candQualifies c' = true → |candEdge c'| ≤ |candEdge c|) := by
  intro l
  induction l with
  | nil => intro b' h; cases h
  | cons c l ih =>
    intro b' h
    rw [List.foldl_cons] at h
    simp only [considerCand] at h
    by_cases hq : candQualifies c = true
    · rw [if_pos hq] at h
      rcases foldl_considerCand_some_spec l (mkBestProp c) b' h with
        ⟨rfl, hall⟩ | ⟨d, l₁, l₂, rfl, hb', hdq, hdlt, hl₁, hl₂⟩
      · refine ⟨c, [], l, by simp, rfl, hq, by simp, ?_⟩
        intro c' hc' hq'
        have := hall c' hc' hq'
        rwa [mkBestProp_edge] at this
      · refine ⟨d, c :: l₁, l₂, by simp, hb', hdq, ?_, hl₂⟩
        intro c' hc'
        rcases List.mem_cons.mp hc' with rfl | hc''
        · intro _
          rw [mkBestProp_edge] at hdlt
          exact hdlt
        · exact hl₁ c' hc''
    · rw [if_neg hq] at h
      obtain ⟨d, l₁, l₂, rfl, hb', hdq, hl₁, hl₂⟩ := ih b' h
      refine ⟨d, c :: l₁, l₂, by simp, hb', hdq, ?_, hl₂⟩
      intro c' hc'
      rcases List.mem_cons.mp hc' with rfl | hc''
      · intro hq'
        exact absurd hq' hq
      · exact hl₁ c' hc''

/-- The scan comes back empty exactly when no candidate qualifies. -/
theorem foldl_considerCand_eq_none :
    ∀ (l : List PropCand),
      l.foldl considerCand none = none ↔ ∀ c ∈ l, candQualifies c = false := by
  intro l
  induction l with
  | nil => simp
  | cons c l ih =>
    rw [List.foldl_cons]
    simp only [considerCand]
    by_cases hq : candQualifies c = true
    · rw [if_pos hq]
      constructor
      · intro h
        exact absurd h (foldl_considerCand_ne_none l (mkBestProp c))
      · intro h
        have := h c (List.mem_cons_self c l)
        rw [hq] at this
        cases this
    · rw [if_neg hq]
      rw [ih]
      constructor
      · intro h c' hc'
        rcases List.mem_cons.mp hc' with rfl | hc''
        · simpa using hq
        · exact h c' hc''
      · intro h c' hc'
        exact h c' (List.mem_cons_of_mem c hc')

/-- A projection whose only qualifying edge is on three-pointers. -/
def c3Proj : PlayerProjection :=
  { playerId := "p", playerName := "P", position := "G",
    projection := 10, line := 10, edge := 0,
    assistsProjection := 5, assistsLine := 5, assistsEdge := 0,
    reboundsProjection := 4, reboundsLine := 4, reboundsEdge := 0,
    threesProjection := 3, threesLine := 5/2, threesEdge := 20,
    isValueBet := true, confidence := 80 }

/-- C3 counterexample: a player whose three-pointer edge is `20%` (far above
the `12%` threshold) while every other edge is `0` produces *no* pick at
all (the win probability `55` disqualifies the moneyline fallback too):
`generateDailyPick` scans only points, assists and rebounds and never
examines the three-pointer edge, so the claim that made three-pointers are
among the scanned statistics is false. -/
theorem c3_counterexample :
    PROP_EDGE_THRESHOLD ≤ |c3Proj.threesEdge| ∧
    generateDailyPick [c3Proj] [] "H" "A" 55 = none := by
  constructor
  · norm_num [c3Proj, PROP_EDGE_THRESHOLD]
  · have hnone : bestPropOf ([c3Proj].map (tagWith "H") ++ ([] : List PlayerProjection).map
        (tagWith "A")) = none := by
      rw [bestPropOf, bestPropOf_eq_foldl_cands, foldl_considerCand_eq_none]
      intro c hc
      simp only [List.map_cons, List.map_nil, List.append_nil, candidatesOf,
        candidatesOfPlayer, List.flatMap_cons, List.flatMap_nil, List.append_nil,
        tagWith, List.mem_cons, List.not_mem_nil, or_false] at hc
      rcases hc with rfl | rfl | rfl
      · norm_num [candQualifies, candEdge, statEdge, c3Proj, PROP_EDGE_THRESHOLD]
      · norm_num [candQualifies, candEdge, statEdge, c3Proj, PROP_EDGE_THRESHOLD]
      · norm_num [candQualifies, candEdge, statEdge, c3Proj, PROP_EDGE_THRESHOLD]
    simp only [generateDailyPick, hnone]
    rw [if_pos (show (50:ℚ) ≤ 55 by norm_num)]
    rw [if_neg (show ¬ MONEYLINE_EDGE_THRESHOLD ≤ (55:ℚ) - 58 by
      norm_num [MONEYLINE_EDGE_THRESHOLD])]
    rw [if_neg (show ¬ MONEYLINE_EDGE_THRESHOLD ≤ (100:ℚ) - 55 - (100 - 58) by
      norm_num [MONEYLINE_EDGE_THRESHOLD])]

/-- C3 (amended): the daily-pick prop scan examines, for every player of
both teams' lists in order, the points, assists and rebounds edges (made
three-pointers, though projected, are never scanned), and returns the first
(player, statistic) candidate attaining the maximal absolute edge among
those with `|edge| ≥ 12` — earlier qualifying candidates are strictly
smaller, later ones no larger — as a prop-over pick when that edge is
positive and a prop-under pick otherwise, with confidence
`min(10, round(5 + |edge|/5))`; when no candidate qualifies the scan is
empty. -/
theorem daily_pick_prop_scan (hp ap : List PlayerProjection) (ha aa : String) (hwp : ℚ) :
    (bestPropOf (hp.map (tagWith ha) ++ ap.map (tagWith aa)) = none ↔
      ∀ c ∈ candidatesOf (hp.map (tagWith ha) ++ ap.map (tagWith aa)),
        ¬ PROP_EDGE_THRESHOLD ≤ |candEdge c|) ∧
    (∀ b, bestPropOf (hp.map (tagWith ha) ++ ap.map (tagWith aa)) = some b →
      ∃ c l₁ l₂, candidatesOf (hp.map (tagWith ha) ++ ap.map (tagWith aa)) = l₁ ++ c :: l₂ ∧
        PROP_EDGE_THRESHOLD ≤ |candEdge c| ∧
        (∀ c' ∈ candidatesOf (hp.map (tagWith ha) ++ ap.map (tagWith aa)),
          PROP_EDGE_THRESHOLD ≤ |candEdge c'| → |candEdge c'| ≤ |candEdge c|) ∧
        (∀ c' ∈ l₁, PROP_EDGE_THRESHOLD ≤ |candEdge c'| → |candEdge c'| < |candEdge c|) ∧
        generateDailyPick hp ap ha aa hwp = some
          { type := if 0 < candEdge c then PickType.propOver else PickType.propUnder
            title := PickTitle.prop c.player.proj.playerName
              (if 0 < candEdge c then OverUnder.over else OverUnder.under)
              (roundToTenth (statLine c.player.proj c.stat)) c.stat
            confidenceScore := min 10 (jsRound (5 + |candEdge c| / 5))
            edgePercentage := roundToTenth |candEdge c|
            bookmakerOdd := 19/10
            projection := some (statProjection c.player.proj c.stat)
            line := some (statLine c.player.proj c.stat)
            playerName := some c.player.proj.playerName
            teamAlias := some c.player.teamAlias }) := by
  constructor
  · rw [bestPropOf, bestPropOf_eq_foldl_cands, foldl_considerCand_eq_none]
    constructor
    · intro h c hc
      have := h c hc
      simp only [candQualifies, decide_eq_false_iff_not] at this
      exact this
    · intro h c hc
      simp only [candQualifies, decide_eq_false_iff_not]
      exact h c hc
  · intro b hb
    rw [bestPropOf, bestPropOf_eq_foldl_cands] at hb
    obtain ⟨c, l₁, l₂, hsplit, hbc, hq, hl₁, hl₂⟩ := foldl_considerCand_none_spec _ b hb
    have hq' : PROP_EDGE_THRESHOLD ≤ |candEdge c| := by
      simpa [candQualifies] using hq
    have hl₁' : ∀ c' ∈ l₁, PROP_EDGE_THRESHOLD ≤ |candEdge c'| → |candEdge c'| < |candEdge c| := by
      intro c' hc' hle
      exact hl₁ c' hc' (by simpa [candQualifies] using hle)
    have hl₂' : ∀ c' ∈ l₂, PROP_EDGE_THRESHOLD ≤ |candEdge c'| → |candEdge c'| ≤ |candEdge c| := by
      intro c' hc' hle
      exact hl₂ c' hc' (by simpa [candQualifies] using hle)
    refine ⟨c, l₁, l₂, hsplit, hq', ?_, hl₁', ?_⟩
    · intro c' hc' hle
      rw [hsplit] at hc'
      rcases List.mem_append.mp hc' with hmem | hmem
      · exact le_of_lt (hl₁' c' hmem hle)
      · rcases List.mem_cons.mp hmem with rfl | hmem'
        · exact le_refl _
        · exact hl₂' c' hmem' hle
    · have hbp : bestPropOf (hp.map (tagWith ha) ++ ap.map (tagWith aa)) = some b := by
        rw [bestPropOf, bestPropOf_eq_foldl_cands]
        exact hb
      simp only [generateDailyPick, hbp]
      subst hbc
      by_cases h0 : 0 < candEdge c
      · simp [mkBestProp, h0]
      · simp [mkBestProp, h0]

/-- Witness for C3 (amended): an empty matchup has an empty scan. -/
theorem daily_pick_prop_scan_witness :
    bestPropOf (([] : List PlayerProjection).map (tagWith "H")
      ++ ([] : List PlayerProjection).map (tagWith "A")) = none :=
  (daily_pick_prop_scan [] [] "H" "A" 0).1.mpr (by simp [candidatesOf])

/-- C5 counterexample: with no qualifying prop and a home win probability of
`36%`, the code prices the away side at the *complement* implied
probability `100 − 45 = 55%`, giving it edge `64 − 55 = 9 ≥ 8` and
returning an away moneyline pick — while the claim's reading (58% implied
for the side modeled ≥ 50%, 45% for the other) yields edges `64 − 58 = 6`
and `36 − 45 = −9`, both below `8`, hence `None`. -/
theorem c5_counterexample :
    generateDailyPick [] [] "H" "A" 36 = some
      { type := PickType.moneylineValue, title := PickTitle.moneyline "A",
        confidenceScore := 7, edgePercentage := 9, bookmakerOdd := 165/100,
        projection := none, line := none, playerName := none, teamAlias := some "A" } ∧
    ((100:ℚ) - 36) - 58 < 8 ∧ ((36:ℚ) - 45) < 8 := by
  refine ⟨?_, by norm_num, by norm_num⟩
  have hnone : bestPropOf (([] : List PlayerProjection).map (tagWith "H")
      ++ ([] : List PlayerProjection).map (tagWith "A")) = none := rfl
  simp only [generateDailyPick, hnone]
  rw [if_neg (show ¬ (50:ℚ) ≤ 36 by norm_num)]
  rw [if_neg (show ¬ MONEYLINE_EDGE_THRESHOLD ≤ (36:ℚ) - 45 by
    norm_num [MONEYLINE_EDGE_THRESHOLD])]
  rw [if_pos (show MONEYLINE_EDGE_THRESHOLD ≤ (100:ℚ) - 36 - (100 - 45) by
    norm_num [MONEYLINE_EDGE_THRESHOLD])]
  rw [if_pos (show (60:ℚ) ≤ 100 - 36 by norm_num)]
  have hconf : min 10 (jsRound (5 + ((100:ℚ) - 36 - (100 - 45)) / 4)) = 7 := by
    have h7 : jsRound (5 + ((100:ℚ) - 36 - (100 - 45)) / 4) = 7 := by
      rw [jsRound]
      norm_num [Int.floor_eq_iff]
    rw [h7]
    decide
  have hedge : roundToTenth ((100:ℚ) - 36 - (100 - 45)) = 9 := by
    rw [roundToTenth]
    norm_num [Int.floor_eq_iff]
  rw [hconf, hedge]

/-- C5 (amended): `generateDailyPick` evaluates in strict priority order:
any qualifying (player, points/assists/rebounds) prop suppresses the
moneyline entirely; otherwise the home side is priced at implied
probability 58 when the model gives it ≥ 50% (else 45) and the away side
at the complement, a side whose model-minus-implied edge reaches 8 points
produces a moneyline pick (home checked first) with confidence
`min(10, round(5 + edge/4))`, and `none` — a valid outcome — is returned
when neither side qualifies. -/
theorem daily_pick_priority (hp ap : List PlayerProjection) (ha aa : String) (hwp : ℚ) :
    ((∃ c ∈ candidatesOf (hp.map (tagWith ha) ++ ap.map (tagWith aa)),
        PROP_EDGE_THRESHOLD ≤ |candEdge c|) →
      ∃ pick, generateDailyPick hp ap ha aa hwp = some pick ∧
        pick.type ≠ PickType.moneylineValue) ∧
    ((∀ c ∈ candidatesOf (hp.map (tagWith ha) ++ ap.map (tagWith aa)),
        ¬ PROP_EDGE_THRESHOLD ≤ |candEdge c|) →
      (MONEYLINE_EDGE_THRESHOLD ≤ hwp - (if 50 ≤ hwp then 58 else 45) →
        generateDailyPick hp ap ha aa hwp = some
          { type := PickType.moneylineValue, title := PickTitle.moneyline ha,
            confidenceScore := min 10 (jsRound (5 + (hwp - (if 50 ≤ hwp then 58 else 45)) / 4)),
            edgePercentage := roundToTenth (hwp - (if 50 ≤ hwp then 58 else 45)),
            bookmakerOdd := if 60 ≤ hwp then 165/100 else 185/100,
            projection := none, line := none, playerName := none, teamAlias := some ha }) ∧
      (¬ MONEYLINE_EDGE_THRESHOLD ≤ hwp - (if 50 ≤ hwp then 58 else 45) →
        MONEYLINE_EDGE_THRESHOLD ≤ (100 - hwp) - (100 - (if 50 ≤ hwp then 58 else 45)) →
        generateDailyPick hp ap ha aa hwp = some
          { type := PickType.moneylineValue, title := PickTitle.moneyline aa,
            confidenceScore := min 10 (jsRound (5 +
              ((100 - hwp) - (100 - (if 50 ≤ hwp then 58 else 45))) / 4)),
            edgePercentage := roundToTenth ((100 - hwp) - (100 - (if 50 ≤ hwp then 58 else 45))),
            bookmakerOdd := if 60 ≤ 100 - hwp then 165/100 else 210/100,
            projection := none, line := none, playerName := none, teamAlias := some aa }) ∧
      (¬ MONEYLINE_EDGE_THRESHOLD ≤ hwp - (if 50 ≤ hwp then 58 else 45) →
        ¬ MONEYLINE_EDGE_THRESHOLD ≤ (100 - hwp) - (100 - (if 50 ≤ hwp then 58 else 45)) →
        generateDailyPick hp ap ha aa hwp = none)) := by
  constructor
  · intro ⟨c, hc, hq⟩
    cases hbp : bestPropOf (hp.map (tagWith ha) ++ ap.map (tagWith aa)) with
    | none =>
      rw [bestPropOf, bestPropOf_eq_foldl_cands, foldl_considerCand_eq_none] at hbp
      have := hbp c hc
      simp only [candQualifies, decide_eq_false_iff_not] at this
      exact absurd hq this
    | some b =>
      refine ⟨{ type := if b.type = OverUnder.over then PickType.propOver else PickType.propUnder,
                title := PickTitle.prop b.player.proj.playerName b.type (roundToTenth b.line)
                  b.stat,
                confidenceScore := min 10 (jsRound (5 + |b.edge| / 5)),
                edgePercentage := roundToTenth |b.edge|,
                bookmakerOdd := 19/10, projection := some b.projection, line := some b.line,
                playerName := some b.player.proj.playerName,
                teamAlias := some b.player.teamAlias }, ?_, ?_⟩
      · simp only [generateDailyPick, hbp]
      · by_cases h0 : b.type = OverUnder.over <;> simp [h0]
  · intro hnoprop
    have hbp : bestPropOf (hp.map (tagWith ha) ++ ap.map (tagWith aa)) = none := by
      rw [bestPropOf, bestPropOf_eq_foldl_cands, foldl_considerCand_eq_none]
      intro c hc
      simp only [candQualifies, decide_eq_false_iff_not]
      exact hnoprop c hc
    refine ⟨?_, ?_, ?_⟩
    · intro hh
      simp only [generateDailyPick, hbp]
      rw [if_pos hh]
    · intro hh ha'
      simp only [generateDailyPick, hbp]
      rw [if_neg hh, if_pos ha']
    · intro hh ha'
      simp only [generateDailyPick, hbp]
      rw [if_neg hh, if_neg ha']

/-- Witness for C5 (amended): no props and a 70% home model probability
produce the home moneyline pick with edge 12 and confidence 8. -/
theorem daily_pick_priority_witness :
    generateDailyPick [] [] "H" "A" 70 = some
      { type := PickType.moneylineValue, title := PickTitle.moneyline "H",
        confidenceScore := 8, edgePercentage := 12, bookmakerOdd := 165/100,
        projection := none, line := none, playerName := none, teamAlias := some "H" } := by
  have h := ((daily_pick_priority [] [] "H" "A" 70).2 (by simp [candidatesOf])).1
  rw [if_pos (show (50:ℚ) ≤ 70 by norm_num)] at h
  rw [h (by norm_num [MONEYLINE_EDGE_THRESHOLD])]
  rw [if_pos (show (60:ℚ) ≤ 70 by norm_num)]
  have hconf : min 10 (jsRound (5 + ((70:ℚ) - 58) / 4)) = 8 := by
    have h8 : jsRound (5 + ((70:ℚ) - 58) / 4) = 8 := by
      rw [jsRound]
      norm_num [Int.floor_eq_iff]
    rw [h8]
    decide
  have hedge : roundToTenth ((70:ℚ) - 58) = 12 := by
    rw [roundToTenth]
    norm_num [Int.floor_eq_iff]
  rw [hconf, hedge]

end Analytics
